import Mathlib

/-!
Verification of the proto2ue type-mapping and name-resolution engine.

This development shallowly embeds the core of the repository:

* src/proto2ue/naming.py        (NamingRules, NameResolver)
* src/proto2ue/config.py        (GeneratorConfig, DEFAULT_RESERVED_IDENTIFIERS)
* src/proto2ue/model.py         (the normalized protobuf schema model)
* src/proto2ue/type_mapper.py   (TypeMapper and its UE output dataclasses)

Python dictionaries are embedded as insertion-ordered association lists with
dict-style insert-or-update; Python sets appear only through membership tests
and are embedded as lists queried with contains.  Python object identity
(id(obj)) is embedded as an explicit oid : Nat tag carried by every schema
object; a resolved type reference is embedded as the record of the fields the
mapper actually reads from the referenced object (its identity, full name and
options).  Raising ValueError / KeyError is embedded as an Except value whose
error constructors keep the two Python exception classes distinct.  The one
unbounded search in the source, the collision-suffix loop, is embedded with an
explicit fuel argument; the registration entry points pass a fuel bound large
enough for the pigeonhole argument that makes the Python loop terminate, and
all theorems about completed runs are unaffected by the extra out-of-fuel
error case.
-/

namespace Proto2UE

/-! ## Python primitives -/

/-- Errors raised by the embedded code: the source raises ValueError for
resolution/configuration errors and KeyError for lookup errors. -/
inductive PyErr where
  | valueError (msg : String)
  | keyError (msg : String)
deriving DecidableEq, Repr

/-- Loosely typed Python value, as found in the free-form options
dictionaries of the schema model (dict keys are strings in every options
dictionary the mapper reads; numeric option values are embedded as integers). -/
inductive PyVal where
  | vNone
  | vBool (b : Bool)
  | vInt (n : Int)
  | vStr (s : String)
  | vList (xs : List PyVal)
  | vDict (xs : List (String × PyVal))

/-- Python str() on the embedded values; scalar forms match CPython, the
container forms are simplified renderings (no claim depends on them). -/
def pyStr : PyVal → String
  | .vNone => "None"
  | .vBool true => "True"
  | .vBool false => "False"
  | .vInt n => toString n
  | .vStr s => s
  | .vList _ => "[...]"
  | .vDict _ => "{...}"

/-- Characters are compared by code point, as Python does. -/
def charListLe : List Char → List Char → Bool
  | [], _ => true
  | _ :: _, [] => false
  | a :: as, b :: bs => if a = b then charListLe as bs else decide (a.toNat < b.toNat)

/-- Python string comparison a <= b (lexicographic by code point). -/
def strLe (a b : String) : Bool := charListLe a.data b.data

/-- Python str.strip() with no argument: remove leading and trailing
whitespace. -/
def pyStrip (s : String) : String :=
  String.mk (((s.data.dropWhile Char.isWhitespace).reverse.dropWhile
    Char.isWhitespace).reverse)

/-- Python str.lower() (ASCII case folding suffices for the identifiers and
option strings the mapper reads). -/
def pyLower (s : String) : String := String.mk (s.data.map Char.toLower)

def pySplitGo (p : Char → Bool) : List Char → List Char → List String
  | acc, [] => [String.mk acc.reverse]
  | acc, c :: cs =>
      if p c then String.mk acc.reverse :: pySplitGo p [] cs
      else pySplitGo p (c :: acc) cs

/-- Splitting on every character satisfying p, keeping empty pieces (the
pieces between two adjacent separators and at both ends). -/
def pySplit (s : String) (p : Char → Bool) : List String :=
  pySplitGo p [] s.data

/-- Python str.startswith. -/
def pyStartsWith (s pre : String) : Bool := pre.data.isPrefixOf s.data

/-- Python character-indexed slicing s[n:]. -/
def pyDrop (s : String) (n : Nat) : String := String.mk (s.data.drop n)

/-- Dict-style insert-or-update on an association list: replaces the first
binding of the key in place, otherwise appends, like a Python dict assignment. -/
def dictInsert {α : Type} (t : List (String × α)) (k : String) (v : α) :
    List (String × α) :=
  match t with
  | [] => [(k, v)]
  | (k1, v1) :: rest =>
      if k1 = k then (k, v) :: rest else (k1, v1) :: dictInsert rest k v

/-- Dict insert-or-update keyed by an object identity. -/
def oidInsert {α : Type} (t : List (Nat × α)) (k : Nat) (v : α) :
    List (Nat × α) :=
  match t with
  | [] => [(k, v)]
  | (k1, v1) :: rest =>
      if k1 = k then (k, v) :: rest else (k1, v1) :: oidInsert rest k v

/-- Insertion sort step on strings, used to embed Python sorted(). -/
def insertSorted (x : String) : List String → List String
  | [] => [x]
  | y :: ys => if strLe x y then x :: y :: ys else y :: insertSorted x ys

/-- Python sorted() on a list of strings. -/
def sortStrings (l : List String) : List String := l.foldr insertSorted []

/-- Python set semantics for accumulating dependency file names: membership
test before appending. -/
def setAdd (l : List String) (x : String) : List String :=
  if l.contains x then l else l ++ [x]

/-! ## Naming helpers (type_mapper.py lines 308-326) -/

/-- Characters matched by the regex class [_\s] used by _PASCAL_CASE_PATTERN. -/
def pascalSplitChar (c : Char) : Bool :=
  c = '_' || c = ' ' || c = '\t' || c = '\n' || c = '\r' || c = '\x0b' || c = '\x0c'

/-- Python part[:1].upper() + part[1:]. -/
def capitalizeFirst (part : String) : String :=
  match part.data with
  | [] => part
  | c :: rest => String.mk (c.toUpper :: rest)

/-- TypeMapper._to_pascal_case: split on runs of underscores/whitespace,
capitalize the first letter of each piece, concatenate; empty input and an
input with no alphanumeric pieces fall back to the raw input. -/
def to_pascal_case (name : String) : String :=
  if name = "" then name
  else
    let parts := (pySplit name pascalSplitChar).filter (· ≠ "")
    if parts = [] then name
    else String.join (parts.map capitalizeFirst)

/-- TypeMapper._relative_symbol_path: the name's path relative to the current
package. -/
def relative_symbol_path (pkg : Option String) (full_name : String) :
    List String :=
  if full_name = "" then []
  else
    let remainder :=
      match pkg with
      | some p =>
          if p ≠ "" && pyStartsWith full_name (p ++ ".") then
            pyDrop full_name (p.length + 1)
          else full_name
      | none => full_name
    (pySplit remainder (· = '.')).filter (· ≠ "")

/-! ## Generator configuration (config.py) -/

/-- DEFAULT_RESERVED_IDENTIFIERS from config.py. -/
def DEFAULT_RESERVED_IDENTIFIERS : List String :=
  ["FVector", "FVector2D", "FVector3d", "FVector4", "FVector4d",
   "EVector", "EVector2D", "EVector3d", "EVector4", "EVector4d",
   "EVectorState"]

/-- GeneratorConfig from config.py (the fields the type mapper reads). -/
structure GeneratorConfig where
  convert_unsigned_to_blueprint : Bool := false
  reserved_identifiers : List String := DEFAULT_RESERVED_IDENTIFIERS
  rename_overrides : List (String × String) := []
  include_package_in_names : Bool := true
deriving Repr

/-! ## Schema model (model.py) -/

inductive FieldCardinality where
  | optionalC
  | requiredC
  | repeatedC
deriving DecidableEq, Repr

inductive FieldKind where
  | scalarK
  | enumK
  | messageK
  | mapK
deriving DecidableEq, Repr

/-- Reference to a resolved model.Message / model.Enum object.  In the source
this is the referenced object itself; the type mapper reads only its identity
(id(obj), embedded as oid), its full_name and its options, which this record
captures. -/
structure ProtoTypeRef where
  oid : Nat
  full_name : String
  options : List (String × PyVal) := []

/-- model.MapEntry. -/
structure MapEntry where
  key_kind : FieldKind
  key_scalar : Option String := none
  key_type_name : Option String := none
  value_kind : FieldKind := .scalarK
  value_scalar : Option String := none
  value_type_name : Option String := none
  key_resolved_type : Option ProtoTypeRef := none
  value_resolved_type : Option ProtoTypeRef := none

/-- model.Field (oid embeds the Python object identity id(field)). -/
structure Field where
  oid : Nat
  name : String
  number : Int
  cardinality : FieldCardinality
  kind : FieldKind
  scalar : Option String := none
  type_name : Option String := none
  resolved_type : Option ProtoTypeRef := none
  map_entry : Option MapEntry := none
  default_value : Option String := none
  json_name : Option String := none
  oneof : Option String := none
  oneof_index : Option Int := none
  proto3_optional : Bool := false
  options : List (String × PyVal) := []

/-- model.EnumValue. -/
structure EnumValue where
  name : String
  number : Int
  options : List (String × PyVal) := []

/-- model.Enum (named PEnum to avoid clashing with the field-kind name). -/
structure PEnum where
  oid : Nat
  name : String
  full_name : String
  values : List EnumValue := []
  options : List (String × PyVal) := []

/-- model.Oneof. -/
structure Oneof where
  name : String
  full_name : String
  fields : List Field := []
  options : List (String × PyVal) := []

/-- model.Message; nested messages make this a nested inductive type. -/
inductive Message where
  | mk (oid : Nat) (name : String) (full_name : String)
       (fields : List Field)
       (nested_messages : List Message)
       (nested_enums : List PEnum)
       (oneofs : List Oneof)
       (options : List (String × PyVal))

def Message.oid : Message → Nat
  | .mk o _ _ _ _ _ _ _ => o

def Message.name : Message → String
  | .mk _ n _ _ _ _ _ _ => n

def Message.full_name : Message → String
  | .mk _ _ fn _ _ _ _ _ => fn

def Message.fields : Message → List Field
  | .mk _ _ _ fs _ _ _ _ => fs

def Message.nested_messages : Message → List Message
  | .mk _ _ _ _ nm _ _ _ => nm

def Message.nested_enums : Message → List PEnum
  | .mk _ _ _ _ _ ne _ _ => ne

def Message.oneofs : Message → List Oneof
  | .mk _ _ _ _ _ _ os _ => os

def Message.options : Message → List (String × PyVal)
  | .mk _ _ _ _ _ _ _ op => op

/-- model.ProtoFile. -/
structure ProtoFile where
  name : String
  package : Option String
  dependencies : List String := []
  public_dependencies : List String := []
  messages : List Message := []
  enums : List PEnum := []
  options : List (String × PyVal) := []

/-! ## Name resolver (naming.py) -/

/-- NamingRules from naming.py. -/
structure NamingRules where
  reserved_symbols : List String
  overrides : List (String × String)
  collision_suffix : String := "Proto"
deriving Repr

/-- The mutable state of a NameResolver instance: the rules it was built
with, the symbols mapping and the growing reserved set. -/
structure ResolverState where
  rules : NamingRules
  symbols : List (String × String)
  reserved : List String
deriving Repr

/-- NameResolver.__init__. -/
def NameResolver.init (rules : NamingRules) (additional_reserved : List String) :
    ResolverState :=
  { rules := rules
    symbols := []
    reserved := rules.reserved_symbols ++
      ((additional_reserved.map pyStrip).filter (· ≠ "")) }

/-- NameResolver._is_available. -/
def resolver_is_available (st : ResolverState) (nm : String) : Bool :=
  !st.reserved.contains nm

/-- The adjusted_suffix expression shared by both collision loops: attempt 1
keeps the bare base suffix, attempt k for k greater than 1 appends the decimal
numeral of k - 1. -/
def attempt_suffix (base_suffix : String) (attempt : Nat) : String :=
  if attempt = 1 then base_suffix else base_suffix ++ Nat.repr (attempt - 1)

/-- The base_suffix expression shared by both collision loops: the collision
infix, followed by the suffix when it is nonempty. -/
def collision_base_suffix (infixWord suffix : String) : String :=
  if suffix ≠ "" then infixWord ++ suffix else infixWord

/-- The while loop of NameResolver._make_unique, with explicit fuel. -/
def resolver_make_unique_go (st : ResolverState) (pfx base_suffix : String) :
    Nat → Nat → Except PyErr (String × ResolverState)
  | 0, _ => .error (.valueError "collision search fuel exhausted")
  | fuel + 1, attempt =>
      let candidate := pfx ++ attempt_suffix base_suffix attempt
      if resolver_is_available st candidate then
        .ok (candidate, { st with reserved := st.reserved ++ [candidate] })
      else resolver_make_unique_go st pfx base_suffix fuel (attempt + 1)

/-- NameResolver._make_unique. -/
def resolver_make_unique (st : ResolverState) (pfx suffix : String) :
    Except PyErr (String × ResolverState) :=
  let candidate := pfx ++ suffix
  if resolver_is_available st candidate then
    .ok (candidate, { st with reserved := st.reserved ++ [candidate] })
  else
    resolver_make_unique_go st pfx
      (collision_base_suffix st.rules.collision_suffix suffix)
      (st.reserved.length + 2) 1

/-- The compose branch of NameResolver.register. -/
def resolver_register_compose (st : ResolverState) (full_name pfx suffix : String) :
    Except PyErr (String × ResolverState) :=
  match resolver_make_unique st pfx suffix with
  | .error e => .error e
  | .ok (candidate, st1) =>
      .ok (candidate, { st1 with symbols := dictInsert st1.symbols full_name candidate })

/-- NameResolver.register. -/
def resolver_register (st : ResolverState) (full_name pfx suffix : String) :
    Except PyErr (String × ResolverState) :=
  match st.symbols.lookup full_name with
  | some cached => .ok (cached, st)
  | none =>
      match st.rules.overrides.lookup full_name with
      | some ov =>
          if ov ≠ "" then
            if st.reserved.contains ov then
              .error (.valueError ("Override " ++ ov ++ " for type " ++ full_name ++
                " conflicts with an existing UE symbol"))
            else
              .ok (ov, { st with reserved := st.reserved ++ [ov],
                                 symbols := dictInsert st.symbols full_name ov })
          else resolver_register_compose st full_name pfx suffix
      | none => resolver_register_compose st full_name pfx suffix

/-- NameResolver.lookup. -/
def resolver_lookup (st : ResolverState) (full_name : String) : Except PyErr String :=
  match st.symbols.lookup full_name with
  | some v => .ok v
  | none => .error (.keyError ("Type " ++ full_name ++ " has not been registered"))

/-! ## Type mapper state (type_mapper.py) -/

/-- The private _UESymbol record of type_mapper.py. -/
structure UESymbol where
  kind : String
  ue_name : String
deriving DecidableEq, Repr

/-- UEOptionalWrapper from type_mapper.py. -/
structure UEOptionalWrapper where
  base_type : String
  ue_name : String
  is_set_member : String := "bIsSet"
  value_member : String := "Value"
  blueprint_type : Bool := true
  value_blueprint_exposed : Bool := true
deriving DecidableEq, Repr

/-- The mutable state of a TypeMapper instance.  The constructor parameters
message_prefix, enum_prefix, optional_wrapper, array_wrapper and map_wrapper
are stored under camel-cased names. -/
structure MapperState where
  config : GeneratorConfig
  messagePrefix : String
  enumPrefix : String
  optionalWrapperPrefix : String
  arrayWrapper : String
  mapWrapper : String
  symbol_table : List (String × UESymbol)
  package : Option String
  current_optional_wrappers : List (String × UEOptionalWrapper)
  current_file_suffix : Option String
  current_proto_file_name : Option String
  type_file_index : List (Nat × String)
  reserved_identifiers : List String
  rename_overrides : List (String × String)

/-- TypeMapper.__init__ (the reserved set drops empty entries, exactly as the
set comprehension on its lines 181-183 does). -/
def TypeMapper.init (config : GeneratorConfig) (mp ep owp aw mw : String) :
    MapperState :=
  { config := config
    messagePrefix := mp
    enumPrefix := ep
    optionalWrapperPrefix := owp
    arrayWrapper := aw
    mapWrapper := mw
    symbol_table := []
    package := none
    current_optional_wrappers := []
    current_file_suffix := none
    current_proto_file_name := none
    type_file_index := []
    reserved_identifiers := config.reserved_identifiers.filter (· ≠ "")
    rename_overrides := config.rename_overrides }

/-- TypeMapper with the default constructor arguments. -/
def TypeMapper.initDefault (config : GeneratorConfig) : MapperState :=
  TypeMapper.init config "F" "E" "FProtoOptional" "TArray" "TMap"

/-- The _COLLISION_INSERT class constant. -/
def COLLISION_INSERT : String := "Proto"

/-- TypeMapper._is_name_available. -/
def is_name_available (s : MapperState) (nm : String) : Bool :=
  !s.reserved_identifiers.contains nm &&
  s.symbol_table.all (fun p => p.2.ue_name != nm)

/-- The while loop of TypeMapper._make_unique_type_name, with explicit fuel;
attempt 1 tries the bare collision-infix candidate, attempt k for k greater
than 1 appends the decimal numeral of k - 1. -/
def make_unique_go (s : MapperState) (pfx base_suffix : String) :
    Nat → Nat → Except PyErr String
  | 0, _ => .error (.valueError "collision search fuel exhausted")
  | fuel + 1, attempt =>
      let candidate := pfx ++ attempt_suffix base_suffix attempt
      if is_name_available s candidate then .ok candidate
      else make_unique_go s pfx base_suffix fuel (attempt + 1)

/-- TypeMapper._make_unique_type_name. -/
def make_unique_type_name (s : MapperState) (pfx suffix : String) :
    Except PyErr String :=
  let candidate := pfx ++ suffix
  if is_name_available s candidate then .ok candidate
  else
    make_unique_go s pfx (collision_base_suffix COLLISION_INSERT suffix)
      (s.reserved_identifiers.length + s.symbol_table.length + 2) 1

/-- TypeMapper._compose_type_name. -/
def compose_type_name (s : MapperState) (pfx full_name : String) :
    Except PyErr String :=
  match s.symbol_table.lookup full_name with
  | some existing => .ok existing.ue_name
  | none =>
      let relative_path := relative_symbol_path s.package full_name
      let suffix := String.join (relative_path.map to_pascal_case)
      make_unique_type_name s pfx suffix

/-- TypeMapper._resolve_type_name. -/
def resolve_type_name (s : MapperState) (full_name pfx : String) :
    Except PyErr String :=
  match s.rename_overrides.lookup full_name with
  | some ov =>
      if pyStrip ov = "" then
        .error (.valueError ("Rename override for " ++ full_name ++
          " resolved to an empty UE identifier"))
      else if s.reserved_identifiers.contains (pyStrip ov) then
        .error (.valueError ("Rename override for " ++ full_name ++
          " uses reserved UE identifier " ++ pyStrip ov))
      else if is_name_available s (pyStrip ov) then .ok (pyStrip ov)
      else
        match s.symbol_table.lookup full_name with
        | some existing =>
            if existing.ue_name = pyStrip ov then .ok (pyStrip ov)
            else
              .error (.valueError ("Rename override for " ++ full_name ++
                " collides with another UE identifier " ++ pyStrip ov))
        | none =>
            .error (.valueError ("Rename override for " ++ full_name ++
              " collides with another UE identifier " ++ pyStrip ov))
  | none => compose_type_name s pfx full_name

/-! ## Registration phase (type_mapper.py lines 186-256) -/

/-- The two assignments shared by _register_enum and _register_message: store
the symbol under the full name and record the declaring file under the type's
object identity. -/
def store_symbol (s : MapperState) (full_name kind ue_name : String)
    (toid : Nat) (file_name : String) : MapperState :=
  { s with
    symbol_table := dictInsert s.symbol_table full_name ⟨kind, ue_name⟩
    type_file_index := oidInsert s.type_file_index toid file_name }

/-- TypeMapper._register_enum. -/
def register_enum (s : MapperState) (file_name : String) (e : PEnum) :
    Except PyErr MapperState :=
  match resolve_type_name s e.full_name s.enumPrefix with
  | .error err => .error err
  | .ok ue_name =>
      .ok (store_symbol s e.full_name "enum" ue_name e.oid file_name)

/-- Registration of a list of enums in order. -/
def register_enum_list (file_name : String) :
    MapperState → List PEnum → Except PyErr MapperState
  | s, [] => .ok s
  | s, e :: es =>
      match register_enum s file_name e with
      | .error err => .error err
      | .ok s1 => register_enum_list file_name s1 es

mutual

/-- TypeMapper._register_message: registers the message itself, then its
nested enums, then its nested messages. -/
def register_message (file_name : String) :
    MapperState → Message → Except PyErr MapperState
  | s, .mk moid _name full_name _fields nested nested_enums _oneofs _opts =>
      match resolve_type_name s full_name s.messagePrefix with
      | .error err => .error err
      | .ok ue_name =>
          match register_enum_list file_name
              (store_symbol s full_name "message" ue_name moid file_name)
              nested_enums with
          | .error err => .error err
          | .ok s2 => register_message_list file_name s2 nested
termination_by structural s m => m

/-- Registration of a list of messages in order. -/
def register_message_list (file_name : String) :
    MapperState → List Message → Except PyErr MapperState
  | s, [] => .ok s
  | s, m :: ms =>
      match register_message file_name s m with
      | .error err => .error err
      | .ok s1 => register_message_list file_name s1 ms
termination_by structural s ms => ms

end

/-- TypeMapper.register_file: under the file's package scope, registers the
file's enums and then its messages. -/
def register_file (s : MapperState) (f : ProtoFile) : Except PyErr MapperState :=
  let prev := s.package
  let s0 := { s with package := f.package }
  match register_enum_list f.name s0 f.enums with
  | .error err => .error err
  | .ok s1 =>
      match register_message_list f.name s1 f.messages with
      | .error err => .error err
      | .ok s2 => .ok { s2 with package := prev }

/-- TypeMapper.register_files. -/
def register_files : MapperState → List ProtoFile → Except PyErr MapperState
  | s, [] => .ok s
  | s, f :: fs =>
      match register_file s f with
      | .error err => .error err
      | .ok s1 => register_files s1 fs

/-! ## Metadata helpers (type_mapper.py lines 633-716) -/

/-- TypeMapper._extract_unreal_options. -/
def extract_unreal_options (options : List (String × PyVal)) :
    List (String × PyVal) :=
  match options.lookup "unreal" with
  | some (.vDict u) => u
  | _ => []

/-- TypeMapper._as_bool (the argument is the result of dict.get, so a missing
key arrives as none and a present null value as vNone). -/
def as_bool (v : Option PyVal) (default : Bool) : Bool :=
  match v with
  | none => default
  | some .vNone => default
  | some (.vBool b) => b
  | some (.vStr s) =>
      let lowered := pyLower (pyStrip s)
      if lowered = "true" || lowered = "1" || lowered = "yes" || lowered = "on" then
        true
      else if lowered = "false" || lowered = "0" || lowered = "no" || lowered = "off" then
        false
      else default
  | some (.vInt n) => decide (n ≠ 0)
  | some (.vList _) => default
  | some (.vDict _) => default

/-- TypeMapper._as_optional_str. -/
def as_optional_str (v : Option PyVal) : Option String :=
  match v with
  | none => none
  | some .vNone => none
  | some (.vStr s) => let st := pyStrip s; if st = "" then none else some st
  | some w => some (pyStr w)

/-- TypeMapper._as_str_list. -/
def as_str_list (v : Option PyVal) : List String :=
  match v with
  | none => []
  | some .vNone => []
  | some (.vList xs) =>
      xs.filterMap (fun item =>
        match item with
        | .vNone => none
        | w => let st := pyStr w; if st = "" then none else some st)
  | some w => let st := pyStr w; if st = "" then [] else [st]

/-- TypeMapper._as_str_dict. -/
def as_str_dict (v : Option PyVal) : List (String × String) :=
  match v with
  | some (.vDict d) =>
      d.filterMap (fun kv =>
        if kv.1 = "" then none
        else
          match kv.2 with
          | .vNone => none
          | w => some (kv.1, pyStr w))
  | _ => []

/-! ## Scalar mapping and symbol lookup -/

/-- The _SCALAR_MAPPING class constant. -/
def SCALAR_MAPPING : List (String × String) :=
  [("double", "double"), ("float", "float"), ("int64", "int64"),
   ("uint64", "uint64"), ("int32", "int32"), ("fixed64", "uint64"),
   ("fixed32", "uint32"), ("bool", "bool"), ("string", "FString"),
   ("bytes", "TArray<uint8>"), ("uint32", "uint32"), ("sfixed32", "int32"),
   ("sfixed64", "int64"), ("sint32", "int32"), ("sint64", "int64")]

/-- TypeMapper._blueprint_unsigned_override. -/
def blueprint_unsigned_override (s : MapperState) (ue_type : String) : String :=
  if !s.config.convert_unsigned_to_blueprint then ue_type
  else if ue_type = "uint32" then "int32"
  else if ue_type = "uint64" then "int64"
  else ue_type

/-- TypeMapper._scalar_to_ue_type. -/
def scalar_to_ue_type (s : MapperState) (scalar : String)
    (field_name : Option String) (position : Option String) :
    Except PyErr String :=
  match SCALAR_MAPPING.lookup scalar with
  | none =>
      match field_name with
      | some fn =>
          .error (.keyError ("Unsupported scalar type " ++ scalar ++
            " for field " ++ fn))
      | none =>
          match position with
          | some pos =>
              .error (.keyError ("Unsupported scalar map " ++ pos ++
                " type " ++ scalar))
          | none => .error (.keyError ("Unsupported scalar type " ++ scalar))
  | some mapped => .ok (blueprint_unsigned_override s mapped)

/-- TypeMapper._lookup_symbol: the first argument carries the full name of the
resolved proto type object when one was passed. -/
def lookup_symbol (s : MapperState) (proto_full : Option String)
    (type_name : Option String) : Except PyErr String :=
  let full_name : Option String :=
    match proto_full with
    | some fn => some fn
    | none => type_name
  match full_name with
  | none => .error (.valueError "Unable to resolve type without a full name")
  | some fn =>
      if fn = "" then
        .error (.valueError "Unable to resolve type without a full name")
      else
        match s.symbol_table.lookup fn with
        | none =>
            .error (.keyError ("Type " ++ fn ++
              " was not registered in the UE symbol table"))
        | some sym => .ok sym.ue_name

/-! ## Dependency metadata (type_mapper.py lines 494-522) -/

/-- TypeMapper._dependency_file_for. -/
def dependency_file_for (s : MapperState) : Option ProtoTypeRef → Option String
  | none => none
  | some t =>
      match s.type_file_index.lookup t.oid with
      | none => none
      | some dep =>
          if dep = "" then none
          else if s.current_proto_file_name = some dep then none
          else some dep

/-- TypeMapper._collect_field_dependencies (a set of at most one element). -/
def collect_field_dependencies (s : MapperState) (f : Field) : List String :=
  if f.kind = .messageK ∨ f.kind = .enumK then
    match dependency_file_for s f.resolved_type with
    | some dep => [dep]
    | none => []
  else []

/-- TypeMapper._collect_map_dependencies (a set of at most two elements). -/
def collect_map_dependencies (s : MapperState) (f : Field) : List String :=
  match f.map_entry with
  | none => []
  | some me =>
      let deps : List String := []
      let deps :=
        match dependency_file_for s me.key_resolved_type with
        | some d => setAdd deps d
        | none => deps
      match dependency_file_for s me.value_resolved_type with
      | some d => setAdd deps d
      | none => deps

/-! ## Field-level type composition (type_mapper.py lines 524-631) -/

/-- TypeMapper._base_type_for_field. -/
def base_type_for_field (s : MapperState) (f : Field) : Except PyErr String :=
  if f.kind = .scalarK then
    match f.scalar with
    | none =>
        .error (.valueError ("Scalar field " ++ f.name ++
          " does not provide a scalar name"))
    | some sc =>
        if sc = "" then
          .error (.valueError ("Scalar field " ++ f.name ++
            " does not provide a scalar name"))
        else scalar_to_ue_type s sc (some f.name) none
  else if f.kind = .messageK ∨ f.kind = .enumK then
    lookup_symbol s (f.resolved_type.map (·.full_name)) f.type_name
  else
    .error (.valueError ("Unsupported field kind for base type resolution on field "
      ++ f.name))

/-- TypeMapper._map_entry_part_type. -/
def map_entry_part_type (s : MapperState) (kind : FieldKind)
    (scalar : Option String) (resolved : Option ProtoTypeRef)
    (type_name : Option String) (position : String) : Except PyErr String :=
  if kind = .scalarK then
    match scalar with
    | none =>
        .error (.valueError ("Map " ++ position ++
          " is scalar but scalar name is missing"))
    | some sc => scalar_to_ue_type s sc none (some position)
  else if kind = .messageK ∨ kind = .enumK then
    lookup_symbol s (resolved.map (·.full_name)) type_name
  else .error (.valueError ("Unsupported map " ++ position ++ " kind"))

/-- TypeMapper._map_field_types: returns the composed map type and the key and
value target types. -/
def map_field_types (s : MapperState) (f : Field) :
    Except PyErr (String × String × String) :=
  match f.map_entry with
  | none =>
      .error (.valueError ("Map field " ++ f.name ++
        " is missing map entry metadata"))
  | some me =>
      match map_entry_part_type s me.key_kind me.key_scalar me.key_resolved_type
          me.key_type_name "key" with
      | .error e => .error e
      | .ok key_type =>
          match map_entry_part_type s me.value_kind me.value_scalar
              me.value_resolved_type me.value_type_name "value" with
          | .error e => .error e
          | .ok value_type =>
              .ok (s.mapWrapper ++ "<" ++ key_type ++ ", " ++ value_type ++ ">",
                key_type, value_type)

/-- TypeMapper._base_type_blueprint_enabled. -/
def base_type_blueprint_enabled (f : Field) : Bool :=
  if f.kind = .messageK then
    match f.resolved_type with
    | some t => as_bool ((extract_unreal_options t.options).lookup "blueprint_type") true
    | none => true
  else if f.kind = .enumK then
    match f.resolved_type with
    | some t => as_bool ((extract_unreal_options t.options).lookup "blueprint_type") true
    | none => true
  else true

/-! ## Identifier sanitizing (type_mapper.py lines 585-614) -/

/-- Python re.sub of each character outside [0-9A-Za-z_] by an underscore. -/
def replaceNonIdent (str : String) : String :=
  String.mk (str.data.map (fun c => if c.isAlphanum || c = '_' then c else '_'))

/-- Python re.sub of every maximal run of characters satisfying p by one
replacement character, written with a flag recording whether the previous
character belonged to a run. -/
def collapseRunsAux (p : Char → Bool) (rep : Char) : Bool → List Char → List Char
  | _, [] => []
  | prevInRun, c :: rest =>
      if p c then
        if prevInRun then collapseRunsAux p rep true rest
        else rep :: collapseRunsAux p rep true rest
      else c :: collapseRunsAux p rep false rest

def collapseRuns (p : Char → Bool) (rep : Char) (l : List Char) : List Char :=
  collapseRunsAux p rep false l

/-- Python re.sub of underscore runs by one underscore, on a string. -/
def collapseUnderscoresStr (str : String) : String :=
  String.mk (collapseRuns (· = '_') '_' str.data)

/-- Python str.strip with a single strip character. -/
def stripChar (c : Char) (str : String) : String :=
  String.mk (((str.data.dropWhile (· = c)).reverse.dropWhile (· = c)).reverse)

/-- TypeMapper._compose_optional_wrapper_name. -/
def compose_optional_wrapper_name (s : MapperState) (base_type : String) :
    String :=
  let sanitized0 := stripChar '_' (collapseUnderscoresStr (replaceNonIdent base_type))
  let sanitized := if sanitized0 = "" then "Value" else sanitized0
  let pascal0 := to_pascal_case sanitized
  let pascal1 := if pascal0 = "" then "Value" else pascal0
  let pascal :=
    match pascal1.data with
    | [] => pascal1
    | c :: _ => if c.isDigit then "_" ++ pascal1 else pascal1
  match s.current_file_suffix with
  | some fs =>
      if fs ≠ "" then s.optionalWrapperPrefix ++ fs ++ pascal
      else s.optionalWrapperPrefix ++ pascal
  | none => s.optionalWrapperPrefix ++ pascal

/-- Python str.rfind on characters: the index of the last occurrence, -1 when
absent. -/
def rfindCharAux : List Char → Char → Int → Int → Int
  | [], _, _, best => best
  | x :: xs, c, i, best => rfindCharAux xs c (i + 1) (if x = c then i else best)

def rfindChar (l : List Char) (c : Char) : Int := rfindCharAux l c 0 (-1)

/-- os.path.splitext for posix paths, following CPython genericpath._splitext:
the extension starts at the last dot that lies after the last slash and after
at least one non-dot character of the base name. -/
def splitext (p : String) : String × String :=
  let chars := p.data
  let sepIndex := rfindChar chars '/'
  let dotIndex := rfindChar chars '.'
  if sepIndex < dotIndex then
    let startIdx := (sepIndex + 1).toNat
    let dotNat := dotIndex.toNat
    let between := (chars.drop startIdx).take (dotNat - startIdx)
    if between.any (fun c => c ≠ '.') then
      (String.mk (chars.take dotNat), String.mk (chars.drop dotNat))
    else (p, "")
  else (p, "")

/-- TypeMapper._sanitize_file_identifier. -/
def sanitize_file_identifier (proto_name : Option String) : Option String :=
  match proto_name with
  | none => none
  | some pn =>
      if pn = "" then none
      else
        let base := (splitext pn).1
        let normalized :=
          String.mk (collapseRuns (fun c => c = '/' || c = '\\') '_' base.data)
        let sanitized1 := stripChar '_' (collapseUnderscoresStr (replaceNonIdent normalized))
        let sanitized := if sanitized1 = "" then "File" else sanitized1
        let pascal0 := to_pascal_case sanitized
        let pascal1 := if pascal0 = "" then "File" else pascal0
        some (match pascal1.data with
          | [] => pascal1
          | c :: _ => if c.isDigit then "_" ++ pascal1 else pascal1)

/-! ## UE output model (type_mapper.py lines 15-134) -/

structure UEEnumValue where
  name : String
  number : Int
  source : EnumValue

structure UEEnum where
  name : String
  full_name : String
  ue_name : String
  values : List UEEnumValue
  blueprint_type : Bool
  specifiers : List String
  metadata : List (String × String)
  category : Option String
  source : Option PEnum

structure UEField where
  name : String
  number : Int
  base_type : String
  ue_type : String
  kind : FieldKind
  cardinality : FieldCardinality
  is_optional : Bool
  is_repeated : Bool
  is_map : Bool
  container : Option String
  map_key_type : Option String
  map_value_type : Option String
  oneof_group : Option String
  json_name : Option String
  default_value : Option String
  blueprint_exposed : Bool
  blueprint_read_only : Bool
  uproperty_specifiers : List String
  uproperty_metadata : List (String × String)
  category : Option String
  source : Option Field
  optional_wrapper : Option UEOptionalWrapper
  dependent_files : List String

structure UEOneofCase where
  name : String
  ue_case_name : String
  field : UEField

structure UEOneofWrapper where
  name : String
  full_name : String
  ue_name : String
  cases : List UEOneofCase
  source : Option Oneof

inductive UEMessage where
  | mk (name : String) (full_name : String) (ue_name : String)
       (fields : List UEField)
       (nested_messages : List UEMessage)
       (nested_enums : List UEEnum)
       (oneofs : List UEOneofWrapper)
       (blueprint_type : Bool)
       (struct_specifiers : List String)
       (struct_metadata : List (String × String))
       (category : Option String)
       (source : Option Message)

def UEMessage.name : UEMessage → String
  | .mk n _ _ _ _ _ _ _ _ _ _ _ => n

def UEMessage.full_name : UEMessage → String
  | .mk _ fn _ _ _ _ _ _ _ _ _ _ => fn

def UEMessage.ue_name : UEMessage → String
  | .mk _ _ un _ _ _ _ _ _ _ _ _ => un

def UEMessage.fields : UEMessage → List UEField
  | .mk _ _ _ fs _ _ _ _ _ _ _ _ => fs

def UEMessage.nested_messages : UEMessage → List UEMessage
  | .mk _ _ _ _ nm _ _ _ _ _ _ _ => nm

def UEMessage.nested_enums : UEMessage → List UEEnum
  | .mk _ _ _ _ _ ne _ _ _ _ _ _ => ne

def UEMessage.oneofs : UEMessage → List UEOneofWrapper
  | .mk _ _ _ _ _ _ os _ _ _ _ _ => os

structure UEProtoFile where
  name : String
  package : Option String
  messages : List UEMessage
  enums : List UEEnum
  optional_wrappers : List UEOptionalWrapper
  source : Option ProtoFile

/-! ## Optional wrapper synthesis (type_mapper.py lines 556-574) -/

/-- TypeMapper._ensure_optional_wrapper.  The Python code mutates the cached
wrapper object in place when downgrading its blueprint exposure; the embedding
updates the cache entry, which is the same observable effect. -/
def ensure_optional_wrapper (s : MapperState) (base_type : String)
    (value_blueprint_type : Bool) : UEOptionalWrapper × MapperState :=
  match s.current_optional_wrappers.lookup base_type with
  | some w =>
      if value_blueprint_type then (w, s)
      else
        let w1 := { w with blueprint_type := false, value_blueprint_exposed := false }
        let s1 := { s with current_optional_wrappers :=
                      dictInsert s.current_optional_wrappers base_type w1 }
        (w1, s1)
  | none =>
      let ue_name := compose_optional_wrapper_name s base_type
      let w : UEOptionalWrapper :=
        { base_type := base_type
          ue_name := ue_name
          blueprint_type := value_blueprint_type
          value_blueprint_exposed := value_blueprint_type }
      let s1 := { s with current_optional_wrappers :=
                    dictInsert s.current_optional_wrappers base_type w }
      (w, s1)

/-! ## Field conversion (type_mapper.py lines 422-492) -/

/-- TypeMapper._convert_field. -/
def convert_field (s : MapperState) (f : Field) :
    Except PyErr (UEField × MapperState) :=
  let unreal_options := extract_unreal_options f.options
  let blueprint_exposed := as_bool (unreal_options.lookup "blueprint_exposed") true
  let blueprint_read_only := as_bool (unreal_options.lookup "blueprint_read_only") false
  let uproperty_specifiers := as_str_list (unreal_options.lookup "specifiers")
  let uproperty_metadata := as_str_dict (unreal_options.lookup "meta")
  let category := as_optional_str (unreal_options.lookup "category")
  let is_oneof_member := f.oneof.isSome
  if f.kind = .mapK then
    match map_field_types s f with
    | .error e => .error e
    | .ok (base_type, key_type, value_type) =>
        let dependent_files := collect_map_dependencies s f
        .ok ({ name := f.name, number := f.number, base_type := base_type,
               ue_type := base_type, kind := f.kind,
               cardinality := f.cardinality, is_optional := false,
               is_repeated := false, is_map := true,
               container := some s.mapWrapper, map_key_type := some key_type,
               map_value_type := some value_type, oneof_group := f.oneof,
               json_name := f.json_name, default_value := f.default_value,
               blueprint_exposed := blueprint_exposed,
               blueprint_read_only := blueprint_read_only,
               uproperty_specifiers := uproperty_specifiers,
               uproperty_metadata := uproperty_metadata, category := category,
               source := some f, optional_wrapper := none,
               dependent_files := sortStrings dependent_files }, s)
  else
    match base_type_for_field s f with
    | .error e => .error e
    | .ok base_type =>
        let is_repeated := f.cardinality == .repeatedC
        let is_proto_optional := f.cardinality == .optionalC && !is_oneof_member
        let wrap_with_optional := is_proto_optional || is_oneof_member
        let dependent_files := collect_field_dependencies s f
        if is_repeated then
          .ok ({ name := f.name, number := f.number, base_type := base_type,
                 ue_type := s.arrayWrapper ++ "<" ++ base_type ++ ">",
                 kind := f.kind, cardinality := f.cardinality,
                 is_optional := false, is_repeated := true, is_map := false,
                 container := some s.arrayWrapper, map_key_type := none,
                 map_value_type := none, oneof_group := f.oneof,
                 json_name := f.json_name, default_value := f.default_value,
                 blueprint_exposed := blueprint_exposed,
                 blueprint_read_only := blueprint_read_only,
                 uproperty_specifiers := uproperty_specifiers,
                 uproperty_metadata := uproperty_metadata, category := category,
                 source := some f, optional_wrapper := none,
                 dependent_files := sortStrings dependent_files }, s)
        else if wrap_with_optional then
          let ws := ensure_optional_wrapper s base_type (base_type_blueprint_enabled f)
          .ok ({ name := f.name, number := f.number, base_type := base_type,
                 ue_type := ws.1.ue_name, kind := f.kind,
                 cardinality := f.cardinality, is_optional := true,
                 is_repeated := false, is_map := false,
                 container := some ws.1.ue_name, map_key_type := none,
                 map_value_type := none, oneof_group := f.oneof,
                 json_name := f.json_name, default_value := f.default_value,
                 blueprint_exposed := blueprint_exposed,
                 blueprint_read_only := blueprint_read_only,
                 uproperty_specifiers := uproperty_specifiers,
                 uproperty_metadata := uproperty_metadata, category := category,
                 source := some f, optional_wrapper := some ws.1,
                 dependent_files := sortStrings dependent_files }, ws.2)
        else
          .ok ({ name := f.name, number := f.number, base_type := base_type,
                 ue_type := base_type, kind := f.kind,
                 cardinality := f.cardinality, is_optional := false,
                 is_repeated := false, is_map := false, container := none,
                 map_key_type := none, map_value_type := none,
                 oneof_group := f.oneof, json_name := f.json_name,
                 default_value := f.default_value,
                 blueprint_exposed := blueprint_exposed,
                 blueprint_read_only := blueprint_read_only,
                 uproperty_specifiers := uproperty_specifiers,
                 uproperty_metadata := uproperty_metadata, category := category,
                 source := some f, optional_wrapper := none,
                 dependent_files := sortStrings dependent_files }, s)

/-! ## Enum, oneof, message and file conversion (type_mapper.py lines 341-420) -/

/-- TypeMapper._convert_enum (reads the mapper state without changing it). -/
def convert_enum (s : MapperState) (e : PEnum) : Except PyErr UEEnum :=
  match lookup_symbol s (some e.full_name) (some e.full_name) with
  | .error err => .error err
  | .ok ue_name =>
      let unreal_options := extract_unreal_options e.options
      .ok { name := e.name, full_name := e.full_name, ue_name := ue_name,
            values := e.values.map (fun v =>
              { name := v.name, number := v.number, source := v }),
            blueprint_type := as_bool (unreal_options.lookup "blueprint_type") true,
            specifiers := as_str_list (unreal_options.lookup "specifiers"),
            metadata := as_str_dict (unreal_options.lookup "meta"),
            category := as_optional_str (unreal_options.lookup "category"),
            source := some e }

def convert_enum_list (s : MapperState) : List PEnum → Except PyErr (List UEEnum)
  | [] => .ok []
  | e :: es =>
      match convert_enum s e with
      | .error err => .error err
      | .ok ue =>
          match convert_enum_list s es with
          | .error err => .error err
          | .ok ues => .ok (ue :: ues)

/-- The case loop of TypeMapper._convert_oneof: each member field is fetched
from the field map by its object identity, as field_map[id(field)] does. -/
def convert_oneof_cases (ue_name : String) (field_map : List (Nat × UEField)) :
    List Field → Except PyErr (List UEOneofCase)
  | [] => .ok []
  | f :: fs =>
      match field_map.lookup f.oid with
      | none =>
          .error (.keyError ("oneof member field " ++ f.name ++
            " was not converted"))
      | some uf =>
          match convert_oneof_cases ue_name field_map fs with
          | .error e => .error e
          | .ok rest =>
              .ok ({ name := f.name,
                     ue_case_name := ue_name ++ to_pascal_case f.name ++ "Case",
                     field := uf } :: rest)

/-- TypeMapper._convert_oneof. -/
def convert_oneof (field_map : List (Nat × UEField)) (message_ue_name : String)
    (o : Oneof) : Except PyErr UEOneofWrapper :=
  let ue_name := message_ue_name ++ to_pascal_case o.name ++ "Oneof"
  match convert_oneof_cases ue_name field_map o.fields with
  | .error e => .error e
  | .ok cases =>
      .ok { name := o.name, full_name := o.full_name, ue_name := ue_name,
            cases := cases, source := some o }

def convert_oneof_list (field_map : List (Nat × UEField))
    (message_ue_name : String) : List Oneof → Except PyErr (List UEOneofWrapper)
  | [] => .ok []
  | o :: os =>
      match convert_oneof field_map message_ue_name o with
      | .error e => .error e
      | .ok w =>
          match convert_oneof_list field_map message_ue_name os with
          | .error e => .error e
          | .ok ws => .ok (w :: ws)

/-- The field loop of TypeMapper._convert_message, threading the mapper state
and accumulating the converted fields and the identity-keyed field map. -/
def convert_field_go : MapperState → List Field → List UEField →
    List (Nat × UEField) →
    Except PyErr (List UEField × List (Nat × UEField) × MapperState)
  | s, [], ufs, fmap => .ok (ufs, fmap, s)
  | s, f :: fs, ufs, fmap =>
      match convert_field s f with
      | .error e => .error e
      | .ok (uf, s1) =>
          convert_field_go s1 fs (ufs ++ [uf]) (oidInsert fmap f.oid uf)

mutual

/-- TypeMapper._convert_message. -/
def convert_message : MapperState → Message → Except PyErr (UEMessage × MapperState)
  | s, .mk moid mname full_name fields nested nested_enums oneofs opts =>
      match lookup_symbol s (some full_name) (some full_name) with
      | .error e => .error e
      | .ok ue_name =>
          let unreal_options := extract_unreal_options opts
          let blueprint_type := as_bool (unreal_options.lookup "blueprint_type") true
          let struct_specifiers := as_str_list (unreal_options.lookup "struct_specifiers")
          let struct_metadata := as_str_dict (unreal_options.lookup "meta")
          let category := as_optional_str (unreal_options.lookup "category")
          match convert_field_go s fields [] [] with
          | .error e => .error e
          | .ok (ufs, fmap, s1) =>
              match convert_message_list s1 nested with
              | .error e => .error e
              | .ok (nested_ue, s2) =>
                  match convert_enum_list s2 nested_enums with
                  | .error e => .error e
                  | .ok enums_ue =>
                      match convert_oneof_list fmap ue_name oneofs with
                      | .error e => .error e
                      | .ok oneofs_ue =>
                          .ok (UEMessage.mk mname full_name ue_name ufs
                            nested_ue enums_ue oneofs_ue blueprint_type
                            struct_specifiers struct_metadata category
                            (some (Message.mk moid mname full_name fields
                              nested nested_enums oneofs opts)), s2)
termination_by structural s m => m

def convert_message_list : MapperState → List Message →
    Except PyErr (List UEMessage × MapperState)
  | s, [] => .ok ([], s)
  | s, m :: ms =>
      match convert_message s m with
      | .error e => .error e
      | .ok (um, s1) =>
          match convert_message_list s1 ms with
          | .error e => .error e
          | .ok (ums, s2) => .ok (um :: ums, s2)
termination_by structural s ms => ms

end

/-- TypeMapper.map_file: registers the file, then converts it under the file's
package scope with a fresh file-scoped optional-wrapper cache and file tag,
restoring the previous scopes afterwards. -/
def map_file (s : MapperState) (f : ProtoFile) :
    Except PyErr (UEProtoFile × MapperState) :=
  match register_file s f with
  | .error e => .error e
  | .ok sR =>
      let prev_package := sR.package
      let previous_wrappers := sR.current_optional_wrappers
      let previous_file_suffix := sR.current_file_suffix
      let previous_proto_file_name := sR.current_proto_file_name
      let s0 := { sR with
        package := f.package
        current_optional_wrappers := []
        current_file_suffix := sanitize_file_identifier (some f.name)
        current_proto_file_name := some f.name }
      match convert_message_list s0 f.messages with
      | .error e => .error e
      | .ok (messages, s1) =>
          match convert_enum_list s1 f.enums with
          | .error e => .error e
          | .ok enums =>
              let wrappers := s1.current_optional_wrappers.map (fun p => p.2)
              let s2 := { s1 with
                package := prev_package
                current_optional_wrappers := previous_wrappers
                current_file_suffix := previous_file_suffix
                current_proto_file_name := previous_proto_file_name }
              .ok ({ name := f.name, package := f.package, messages := messages,
                     enums := enums, optional_wrappers := wrappers,
                     source := some f }, s2)

/-! ## Call sequences on one mapper instance -/

/-- One public call on a TypeMapper instance. -/
inductive MapperOp where
  | regFile (f : ProtoFile)
  | regFiles (fs : List ProtoFile)
  | mapFile (f : ProtoFile)

def run_op (s : MapperState) : MapperOp → Except PyErr MapperState
  | .regFile f => register_file s f
  | .regFiles fs => register_files s fs
  | .mapFile f =>
      match map_file s f with
      | .error e => .error e
      | .ok (_, s1) => .ok s1

def run_ops : MapperState → List MapperOp → Except PyErr MapperState
  | s, [] => .ok s
  | s, op :: ops =>
      match run_op s op with
      | .error e => .error e
      | .ok s1 => run_ops s1 ops

mutual

/-- All converted fields of a mapped message, in conversion order, nested
messages included. -/
def UEMessage.allFields : UEMessage → List UEField
  | .mk _ _ _ fs nested _ _ _ _ _ _ _ => fs ++ UEMessage.allFieldsList nested
termination_by structural m => m

def UEMessage.allFieldsList : List UEMessage → List UEField
  | [] => []
  | m :: ms => UEMessage.allFields m ++ UEMessage.allFieldsList ms
termination_by structural ms => ms

end

/-! ## Association-list lemmas -/

theorem lookup_dictInsert_self {α : Type} (t : List (String × α)) (k : String) (v : α) :
    (dictInsert t k v).lookup k = some v := by
  induction t with
  | nil => simp [dictInsert, List.lookup]
  | cons p rest ih =>
      by_cases h : p.1 = k
      · simp [dictInsert, h, List.lookup]
      · obtain ⟨k1, v1⟩ := p
        simp only at h
        simp only [dictInsert, if_neg h, List.lookup]
        have : (k == k1) = false := by
          simp [beq_eq_false_iff_ne]
          intro hk; exact h hk.symm
        simp [this, ih]

theorem lookup_dictInsert_other {α : Type} (t : List (String × α)) (k k1 : String)
    (v : α) (hne : k1 ≠ k) : (dictInsert t k v).lookup k1 = t.lookup k1 := by
  induction t with
  | nil =>
      simp [dictInsert, List.lookup, beq_eq_false_iff_ne.mpr hne]
  | cons p rest ih =>
      obtain ⟨k2, v2⟩ := p
      by_cases h : k2 = k
      · subst h
        simp only [dictInsert, if_pos rfl, List.lookup]
        simp [beq_eq_false_iff_ne.mpr hne]
      · simp only [dictInsert, if_neg h, List.lookup]
        by_cases h2 : k1 = k2
        · simp [h2]
        · simp [beq_eq_false_iff_ne.mpr h2, ih]

theorem lookup_mem {α : Type} {t : List (String × α)} {k : String} {v : α}
    (h : t.lookup k = some v) : (k, v) ∈ t := by
  induction t with
  | nil => simp [List.lookup] at h
  | cons p rest ih =>
      obtain ⟨k1, v1⟩ := p
      simp only [List.lookup] at h
      by_cases hk : k = k1
      · subst hk
        simp at h
        simp [h]
      · simp [beq_eq_false_iff_ne.mpr hk] at h
        exact List.mem_cons_of_mem _ (ih h)

/-! ## Availability lemmas -/

theorem available_not_reserved {s : MapperState} {nm : String}
    (h : is_name_available s nm = true) :
    s.reserved_identifiers.contains nm = false := by
  unfold is_name_available at h
  rcases Bool.and_eq_true_iff.mp h with ⟨h1, _⟩
  simpa using h1

theorem available_ne_assigned {s : MapperState} {nm : String}
    (h : is_name_available s nm = true) :
    ∀ k v, s.symbol_table.lookup k = some v → v.ue_name ≠ nm := by
  unfold is_name_available at h
  rcases Bool.and_eq_true_iff.mp h with ⟨_, h2⟩
  intro k v hkv
  have hm := lookup_mem hkv
  have := List.all_eq_true.mp h2 (k, v) hm
  simpa [bne_iff_ne] using this

theorem make_unique_go_available {s : MapperState} {pfx base : String} :
    ∀ {fuel attempt : Nat} {nm : String},
      make_unique_go s pfx base fuel attempt = .ok nm →
      is_name_available s nm = true := by
  intro fuel
  induction fuel with
  | zero => intro attempt nm h; simp [make_unique_go] at h
  | succ fuel ih =>
      intro attempt nm h
      rw [make_unique_go] at h
      by_cases hc : is_name_available s (pfx ++ attempt_suffix base attempt) = true
      · simp only [hc, if_true] at h
        cases h
        exact hc
      · simp only [hc, if_false] at h
        exact ih h

theorem make_unique_type_name_available {s : MapperState} {pfx suffix nm : String}
    (h : make_unique_type_name s pfx suffix = .ok nm) :
    is_name_available s nm = true := by
  unfold make_unique_type_name at h
  by_cases hc : is_name_available s (pfx ++ suffix) = true
  · simp only [hc, if_true] at h
    cases h
    exact hc
  · simp only [hc, if_false] at h
    exact make_unique_go_available h

/-- A successfully resolved type name is either the name already cached for
the same fully-qualified name, or a fresh available name. -/
theorem resolve_type_name_cases {s : MapperState} {fn pfx nm : String}
    (h : resolve_type_name s fn pfx = .ok nm) :
    (∃ sym, s.symbol_table.lookup fn = some sym ∧ sym.ue_name = nm) ∨
      is_name_available s nm = true := by
  unfold resolve_type_name at h
  cases hov : s.rename_overrides.lookup fn with
  | some ov =>
      rw [hov] at h
      by_cases h1 : pyStrip ov = ""
      · simp [h1] at h
      · simp only [h1, if_false, ite_false, if_neg h1] at h
        by_cases h2 : pyStrip ov ∈ s.reserved_identifiers
        · simp [h2] at h
        · have h2c : s.reserved_identifiers.contains (pyStrip ov) = false := by
            simpa using h2
          simp only [h2c, Bool.false_eq_true, if_false, ite_false] at h
          by_cases h3 : is_name_available s (pyStrip ov) = true
          · simp only [h3, if_true, ite_true] at h
            cases h
            exact Or.inr h3
          · simp only [h3, if_false, ite_false] at h
            cases hex : s.symbol_table.lookup fn with
            | some existing =>
                simp only [hex] at h
                by_cases h4 : existing.ue_name = pyStrip ov
                · simp only [h4, if_true, ite_true] at h
                  cases h
                  exact Or.inl ⟨existing, rfl, h4⟩
                · simp only [h4, if_false, ite_false] at h
                  cases h
            | none =>
                simp only [hex] at h
                cases h
  | none =>
      rw [hov] at h
      unfold compose_type_name at h
      cases hex : s.symbol_table.lookup fn with
      | some existing =>
          rw [hex] at h
          cases h
          exact Or.inl ⟨existing, rfl, rfl⟩
      | none =>
          rw [hex] at h
          right
          exact make_unique_type_name_available h

/-! ## The symbol-table uniqueness invariant (claim C1) -/

/-- Pairwise distinctness of assigned identifiers across distinct
fully-qualified names, plus disjointness from the reserved set. -/
def TableOK (reserved : List String) (t : List (String × UESymbol)) : Prop :=
  (∀ k1 v1 k2 v2, t.lookup k1 = some v1 → t.lookup k2 = some v2 → k1 ≠ k2 →
     v1.ue_name ≠ v2.ue_name) ∧
  (∀ k v, t.lookup k = some v → reserved.contains v.ue_name = false)

def StateOK (s : MapperState) : Prop :=
  TableOK s.reserved_identifiers s.symbol_table

theorem tableOK_insert {reserved : List String} {t : List (String × UESymbol)}
    {fn kind nm : String} (hOK : TableOK reserved t)
    (hc : (∃ sym, t.lookup fn = some sym ∧ sym.ue_name = nm) ∨
          (reserved.contains nm = false ∧
           ∀ k v, t.lookup k = some v → v.ue_name ≠ nm)) :
    TableOK reserved (dictInsert t fn ⟨kind, nm⟩) := by
  obtain ⟨hdist, hres⟩ := hOK
  constructor
  · intro k1 v1 k2 v2 h1 h2 hne
    by_cases e1 : k1 = fn
    · subst e1
      rw [lookup_dictInsert_self] at h1
      cases h1
      rw [lookup_dictInsert_other t k1 k2 _ hne.symm] at h2
      rcases hc with ⟨sym, hsym, hname⟩ | ⟨_, hfresh⟩
      · have := hdist k1 sym k2 v2 hsym h2 hne
        simpa [hname] using this
      · intro hcontra
        exact hfresh k2 v2 h2 hcontra.symm
    · rw [lookup_dictInsert_other t fn k1 _ e1] at h1
      by_cases e2 : k2 = fn
      · subst e2
        rw [lookup_dictInsert_self] at h2
        cases h2
        rcases hc with ⟨sym, hsym, hname⟩ | ⟨_, hfresh⟩
        · have := hdist k1 v1 k2 sym h1 hsym hne
          simp only
          rw [← hname] at *
          exact this
        · exact hfresh k1 v1 h1
      · rw [lookup_dictInsert_other t fn k2 _ e2] at h2
        exact hdist k1 v1 k2 v2 h1 h2 hne
  · intro k v hkv
    by_cases e : k = fn
    · subst e
      rw [lookup_dictInsert_self] at hkv
      cases hkv
      rcases hc with ⟨sym, hsym, hname⟩ | ⟨hfresh, _⟩
      · have := hres k sym hsym
        simpa [hname] using this
      · simpa using hfresh
    · rw [lookup_dictInsert_other t fn k _ e] at hkv
      exact hres k v hkv

/-- The single registration step: resolving a name and storing it preserves
the invariant (and the reserved set, the table effect being store_symbol). -/
theorem stateOK_store {s : MapperState} {fn pfx kind nm : String}
    {toid : Nat} {file_name : String}
    (hOK : StateOK s) (hres : resolve_type_name s fn pfx = .ok nm) :
    StateOK (store_symbol s fn kind nm toid file_name) := by
  show TableOK s.reserved_identifiers (dictInsert s.symbol_table fn ⟨kind, nm⟩)
  refine tableOK_insert hOK ?_
  rcases resolve_type_name_cases hres with h | h
  · exact Or.inl h
  · exact Or.inr ⟨available_not_reserved h, available_ne_assigned h⟩

theorem stateOK_init (cfg : GeneratorConfig) (mp ep owp aw mw : String) :
    StateOK (TypeMapper.init cfg mp ep owp aw mw) := by
  constructor
  · intro k1 v1 k2 v2 h1
    simp [TypeMapper.init, List.lookup] at h1
  · intro k v h1
    simp [TypeMapper.init, List.lookup] at h1

theorem register_enum_ok {s s' : MapperState} {fn : String} {e : PEnum}
    (hOK : StateOK s) (h : register_enum s fn e = .ok s') :
    StateOK s' ∧ s'.reserved_identifiers = s.reserved_identifiers := by
  unfold register_enum at h
  cases hres : resolve_type_name s e.full_name s.enumPrefix with
  | error err => rw [hres] at h; cases h
  | ok nm =>
      rw [hres] at h
      cases h
      exact ⟨stateOK_store hOK hres, rfl⟩

theorem register_enum_list_ok {fn : String} :
    ∀ {es : List PEnum} {s s' : MapperState}, StateOK s →
      register_enum_list fn s es = .ok s' →
      StateOK s' ∧ s'.reserved_identifiers = s.reserved_identifiers := by
  intro es
  induction es with
  | nil =>
      intro s s' hOK h
      cases h
      exact ⟨hOK, rfl⟩
  | cons e es ih =>
      intro s s' hOK h
      unfold register_enum_list at h
      cases hstep : register_enum s fn e with
      | error err => rw [hstep] at h; cases h
      | ok s1 =>
          rw [hstep] at h
          obtain ⟨h1, h2⟩ := register_enum_ok hOK hstep
          obtain ⟨h3, h4⟩ := ih h1 h
          exact ⟨h3, h4.trans h2⟩

mutual

theorem register_message_ok (fn : String) (m : Message) :
    ∀ {s s' : MapperState}, StateOK s → register_message fn s m = .ok s' →
      StateOK s' ∧ s'.reserved_identifiers = s.reserved_identifiers := by
  cases m with
  | mk moid mname full_name fields nested nested_enums oneofs opts =>
      intro s s' hOK h
      unfold register_message at h
      cases hres : resolve_type_name s full_name s.messagePrefix with
      | error err => rw [hres] at h; cases h
      | ok nm =>
          simp only [hres] at h
          have hOK1 : StateOK (store_symbol s full_name "message" nm moid fn) :=
            stateOK_store hOK hres
          cases hstep : register_enum_list fn
              (store_symbol s full_name "message" nm moid fn) nested_enums with
          | error err => rw [hstep] at h; cases h
          | ok s2 =>
              rw [hstep] at h
              obtain ⟨h1, h2⟩ := register_enum_list_ok hOK1 hstep
              obtain ⟨h3, h4⟩ := register_message_list_ok fn nested h1 h
              exact ⟨h3, h4.trans h2⟩

theorem register_message_list_ok (fn : String) (ms : List Message) :
    ∀ {s s' : MapperState}, StateOK s → register_message_list fn s ms = .ok s' →
      StateOK s' ∧ s'.reserved_identifiers = s.reserved_identifiers := by
  cases ms with
  | nil =>
      intro s s' hOK h
      cases h
      exact ⟨hOK, rfl⟩
  | cons m ms =>
      intro s s' hOK h
      unfold register_message_list at h
      cases hstep : register_message fn s m with
      | error err => rw [hstep] at h; cases h
      | ok s1 =>
          rw [hstep] at h
          obtain ⟨h1, h2⟩ := register_message_ok fn m hOK hstep
          obtain ⟨h3, h4⟩ := register_message_list_ok fn ms h1 h
          exact ⟨h3, h4.trans h2⟩

end

theorem register_file_ok {s s' : MapperState} {f : ProtoFile}
    (hOK : StateOK s) (h : register_file s f = .ok s') :
    StateOK s' ∧ s'.reserved_identifiers = s.reserved_identifiers := by
  simp only [register_file] at h
  cases h1 : register_enum_list f.name { s with package := f.package } f.enums with
  | error err => simp only [h1] at h; cases h
  | ok s1 =>
      simp only [h1] at h
      have hOK0 : StateOK { s with package := f.package } := hOK
      obtain ⟨hA, hB⟩ := register_enum_list_ok hOK0 h1
      cases h2 : register_message_list f.name s1 f.messages with
      | error err => simp only [h2] at h; cases h
      | ok s2 =>
          simp only [h2] at h
          cases h
          obtain ⟨hC, hD⟩ := register_message_list_ok f.name f.messages hA h2
          exact ⟨hC, hD.trans hB⟩

theorem register_files_ok :
    ∀ {fs : List ProtoFile} {s s' : MapperState}, StateOK s →
      register_files s fs = .ok s' →
      StateOK s' ∧ s'.reserved_identifiers = s.reserved_identifiers := by
  intro fs
  induction fs with
  | nil =>
      intro s s' hOK h
      cases h
      exact ⟨hOK, rfl⟩
  | cons f fs ih =>
      intro s s' hOK h
      unfold register_files at h
      cases hstep : register_file s f with
      | error err => rw [hstep] at h; cases h
      | ok s1 =>
          rw [hstep] at h
          obtain ⟨h1, h2⟩ := register_file_ok hOK hstep
          obtain ⟨h3, h4⟩ := ih h1 h
          exact ⟨h3, h4.trans h2⟩

/-! ## The conversion phase leaves the symbol table and reserved set alone -/

theorem ensure_optional_wrapper_fields (s : MapperState) (b : String) (vb : Bool) :
    (ensure_optional_wrapper s b vb).2.symbol_table = s.symbol_table ∧
    (ensure_optional_wrapper s b vb).2.reserved_identifiers = s.reserved_identifiers := by
  unfold ensure_optional_wrapper
  cases h : s.current_optional_wrappers.lookup b with
  | some w => cases vb <;> simp
  | none => simp

theorem convert_field_preserves {s : MapperState} {f : Field} {uf : UEField}
    {s1 : MapperState} (h : convert_field s f = .ok (uf, s1)) :
    s1.symbol_table = s.symbol_table ∧
    s1.reserved_identifiers = s.reserved_identifiers := by
  unfold convert_field at h
  by_cases hk : f.kind = FieldKind.mapK
  · rw [if_pos hk] at h
    cases hm : map_field_types s f with
    | error e => rw [hm] at h; cases h
    | ok t =>
        obtain ⟨bt, kt, vt⟩ := t
        rw [hm] at h
        simp only at h
        cases h
        exact ⟨rfl, rfl⟩
  · rw [if_neg hk] at h
    cases hb : base_type_for_field s f with
    | error e => rw [hb] at h; cases h
    | ok bt =>
        rw [hb] at h
        simp only at h
        by_cases hr : (f.cardinality == FieldCardinality.repeatedC) = true
        · simp only [hr, if_true, ite_true] at h
          cases h
          exact ⟨rfl, rfl⟩
        · simp only [hr, Bool.false_eq_true, if_false, ite_false] at h
          by_cases hw : (f.cardinality == FieldCardinality.optionalC && !f.oneof.isSome
              || f.oneof.isSome) = true
          · simp only [hw, if_true, ite_true] at h
            cases h
            exact ensure_optional_wrapper_fields s bt (base_type_blueprint_enabled f)
          · simp only [hw, Bool.false_eq_true, if_false, ite_false] at h
            cases h
            exact ⟨rfl, rfl⟩

theorem convert_field_go_preserves :
    ∀ {fs : List Field} {s : MapperState} {acc : List UEField}
      {fmap : List (Nat × UEField)} {ufs : List UEField}
      {fmap1 : List (Nat × UEField)} {s1 : MapperState},
      convert_field_go s fs acc fmap = .ok (ufs, fmap1, s1) →
      s1.symbol_table = s.symbol_table ∧
      s1.reserved_identifiers = s.reserved_identifiers := by
  intro fs
  induction fs with
  | nil =>
      intro s acc fmap ufs fmap1 s1 h
      cases h
      exact ⟨rfl, rfl⟩
  | cons f fs ih =>
      intro s acc fmap ufs fmap1 s1 h
      unfold convert_field_go at h
      cases hstep : convert_field s f with
      | error e => rw [hstep] at h; cases h
      | ok p =>
          obtain ⟨uf, s2⟩ := p
          rw [hstep] at h
          simp only at h
          obtain ⟨h1, h2⟩ := convert_field_preserves hstep
          obtain ⟨h3, h4⟩ := ih h
          exact ⟨h3.trans h1, h4.trans h2⟩

mutual

theorem convert_message_preserves (m : Message) :
    ∀ {s : MapperState} {um : UEMessage} {s1 : MapperState},
      convert_message s m = .ok (um, s1) →
      s1.symbol_table = s.symbol_table ∧
      s1.reserved_identifiers = s.reserved_identifiers := by
  cases m with
  | mk moid mname full_name fields nested nested_enums oneofs opts =>
      intro s um s1 h
      unfold convert_message at h
      cases hl : lookup_symbol s (some full_name) (some full_name) with
      | error e => rw [hl] at h; cases h
      | ok nm =>
          simp only [hl] at h
          cases hf : convert_field_go s fields [] [] with
          | error e => rw [hf] at h; cases h
          | ok t =>
              obtain ⟨ufs, fmap, s2⟩ := t
              simp only [hf] at h
              cases hn : convert_message_list s2 nested with
              | error e => rw [hn] at h; cases h
              | ok p =>
                  obtain ⟨ums, s3⟩ := p
                  simp only [hn] at h
                  cases he : convert_enum_list s3 nested_enums with
                  | error e => rw [he] at h; cases h
                  | ok ues =>
                      simp only [he] at h
                      cases ho : convert_oneof_list fmap nm oneofs with
                      | error e => rw [ho] at h; cases h
                      | ok ows =>
                          simp only [ho] at h
                          cases h
                          obtain ⟨h1, h2⟩ := convert_field_go_preserves hf
                          obtain ⟨h3, h4⟩ := convert_message_list_preserves nested hn
                          exact ⟨h3.trans h1, h4.trans h2⟩

theorem convert_message_list_preserves (ms : List Message) :
    ∀ {s : MapperState} {ums : List UEMessage} {s1 : MapperState},
      convert_message_list s ms = .ok (ums, s1) →
      s1.symbol_table = s.symbol_table ∧
      s1.reserved_identifiers = s.reserved_identifiers := by
  cases ms with
  | nil =>
      intro s ums s1 h
      cases h
      exact ⟨rfl, rfl⟩
  | cons m ms =>
      intro s ums s1 h
      unfold convert_message_list at h
      cases hstep : convert_message s m with
      | error e => rw [hstep] at h; cases h
      | ok p =>
          obtain ⟨um, s2⟩ := p
          simp only [hstep] at h
          cases hrest : convert_message_list s2 ms with
          | error e => rw [hrest] at h; cases h
          | ok q =>
              obtain ⟨ums2, s3⟩ := q
              simp only [hrest] at h
              cases h
              obtain ⟨h1, h2⟩ := convert_message_preserves m hstep
              obtain ⟨h3, h4⟩ := convert_message_list_preserves ms hrest
              exact ⟨h3.trans h1, h4.trans h2⟩

end

theorem map_file_ok {s : MapperState} {f : ProtoFile} {out : UEProtoFile}
    {s2 : MapperState} (hOK : StateOK s) (h : map_file s f = .ok (out, s2)) :
    StateOK s2 ∧ s2.reserved_identifiers = s.reserved_identifiers := by
  simp only [map_file] at h
  cases hreg : register_file s f with
  | error e => rw [hreg] at h; cases h
  | ok sR =>
      simp only [hreg] at h
      obtain ⟨hROK, hRres⟩ := register_file_ok hOK hreg
      cases hml : convert_message_list { sR with
          package := f.package
          current_optional_wrappers := []
          current_file_suffix := sanitize_file_identifier (some f.name)
          current_proto_file_name := some f.name } f.messages with
      | error e => rw [hml] at h; cases h
      | ok p =>
          obtain ⟨messages, s1⟩ := p
          simp only [hml] at h
          cases hel : convert_enum_list s1 f.enums with
          | error e => rw [hel] at h; cases h
          | ok enums =>
              simp only [hel] at h
              cases h
              obtain ⟨hT, hR⟩ := convert_message_list_preserves f.messages hml
              constructor
              · show TableOK s1.reserved_identifiers s1.symbol_table
                rw [hT, hR]
                exact hROK
              · show s1.reserved_identifiers = s.reserved_identifiers
                rw [hR]
                exact hRres

theorem run_op_ok {s s' : MapperState} {op : MapperOp}
    (hOK : StateOK s) (h : run_op s op = .ok s') :
    StateOK s' ∧ s'.reserved_identifiers = s.reserved_identifiers := by
  cases op with
  | regFile f => exact register_file_ok hOK h
  | regFiles fs => exact register_files_ok hOK h
  | mapFile f =>
      simp only [run_op] at h
      cases hm : map_file s f with
      | error e => rw [hm] at h; cases h
      | ok p =>
          obtain ⟨out, s2⟩ := p
          simp only [hm] at h
          cases h
          exact map_file_ok hOK hm

theorem run_ops_ok :
    ∀ {ops : List MapperOp} {s s' : MapperState}, StateOK s →
      run_ops s ops = .ok s' →
      StateOK s' ∧ s'.reserved_identifiers = s.reserved_identifiers := by
  intro ops
  induction ops with
  | nil =>
      intro s s' hOK h
      cases h
      exact ⟨hOK, rfl⟩
  | cons op ops ih =>
      intro s s' hOK h
      unfold run_ops at h
      cases hstep : run_op s op with
      | error e => rw [hstep] at h; cases h
      | ok s1 =>
          rw [hstep] at h
          obtain ⟨h1, h2⟩ := run_op_ok hOK hstep
          obtain ⟨h3, h4⟩ := ih h1 h
          exact ⟨h3, h4.trans h2⟩

/-! ## Claim C1 -/

/-- The state a completed call sequence ends in (used by concrete witnesses). -/
def run_ops_state (s : MapperState) (ops : List MapperOp) : MapperState :=
  match run_ops s ops with
  | .ok s1 => s1
  | .error _ => s

/-- C1: for every sequence of register_file / register_files / map_file calls
on one TypeMapper instance that completes without raising, the target
identifiers recorded in the symbol table are pairwise distinct across distinct
fully-qualified names, and no assigned identifier equals an entry of the
configured reserved-identifier set (the constructor drops empty entries from
the configured set on its lines 181-183, and the config parser never produces
empty entries, so the filtered list below is the configured set). -/
theorem C1_identifier_uniqueness (cfg : GeneratorConfig) (mp ep owp aw mw : String)
    (ops : List MapperOp) (s' : MapperState)
    (h : run_ops (TypeMapper.init cfg mp ep owp aw mw) ops = .ok s') :
    (∀ k1 v1 k2 v2, s'.symbol_table.lookup k1 = some v1 →
       s'.symbol_table.lookup k2 = some v2 → k1 ≠ k2 →
       v1.ue_name ≠ v2.ue_name) ∧
    (∀ k v, s'.symbol_table.lookup k = some v →
       (cfg.reserved_identifiers.filter (· ≠ "")).contains v.ue_name = false) := by
  obtain ⟨hOK, hres⟩ := run_ops_ok (stateOK_init cfg mp ep owp aw mw) h
  obtain ⟨h1, h2⟩ := hOK
  refine ⟨h1, ?_⟩
  intro k v hkv
  have hc := h2 k v hkv
  rw [hres] at hc
  exact hc

def c1Enum : PEnum :=
  { oid := 1, name := "Color", full_name := "demo.Color",
    values := [{ name := "RED", number := 1 }, { name := "GREEN", number := 2 }] }

def c1Field : Field :=
  { oid := 3, name := "color", number := 1, cardinality := .optionalC,
    kind := .enumK, type_name := some "demo.Color",
    resolved_type := some ⟨1, "demo.Color", []⟩ }

def c1File : ProtoFile :=
  { name := "demo.proto", package := some "demo",
    messages := [Message.mk 2 "Widget" "demo.Widget" [c1Field] [] [] [] []],
    enums := [c1Enum] }

def c1Ops : List MapperOp := [MapperOp.regFile c1File, MapperOp.mapFile c1File]

def c1Init : MapperState := TypeMapper.initDefault {}

theorem C1_identifier_uniqueness_witness :
    run_ops c1Init c1Ops = .ok (run_ops_state c1Init c1Ops) ∧
    ((∀ k1 v1 k2 v2, (run_ops_state c1Init c1Ops).symbol_table.lookup k1 = some v1 →
        (run_ops_state c1Init c1Ops).symbol_table.lookup k2 = some v2 → k1 ≠ k2 →
        v1.ue_name ≠ v2.ue_name) ∧
     (∀ k v, (run_ops_state c1Init c1Ops).symbol_table.lookup k = some v →
        ((GeneratorConfig.reserved_identifiers {}).filter (· ≠ "")).contains v.ue_name = false)) :=
  ⟨rfl, C1_identifier_uniqueness {} "F" "E" "FProtoOptional" "TArray" "TMap"
    c1Ops (run_ops_state c1Init c1Ops) rfl⟩

/-! ## Claim C2 -/

theorem dictInsert_idem {α : Type} (t : List (String × α)) (k : String) (v : α) :
    dictInsert (dictInsert t k v) k v = dictInsert t k v := by
  induction t with
  | nil => simp [dictInsert]
  | cons p rest ih =>
      obtain ⟨k1, v1⟩ := p
      by_cases h : k1 = k
      · simp [dictInsert, h]
      · simp only [dictInsert, if_neg h]
        rw [ih]

theorem is_name_available_false {s : MapperState} {fn nm : String} {v : UESymbol}
    (h : s.symbol_table.lookup fn = some v) (hv : v.ue_name = nm) :
    is_name_available s nm = false := by
  unfold is_name_available
  have hm := lookup_mem h
  have hall : s.symbol_table.all (fun p => p.2.ue_name != nm) = false := by
    refine List.all_eq_false.mpr ⟨(fn, v), hm, ?_⟩
    simp [hv]
  simp [hall]

/-- When an override is configured for a name, a successful resolution
returns exactly the stripped override, which is nonempty and not reserved. -/
theorem resolve_override_ok {s : MapperState} {fn p ov nm : String}
    (hov : s.rename_overrides.lookup fn = some ov)
    (h : resolve_type_name s fn p = .ok nm) :
    nm = pyStrip ov ∧ pyStrip ov ≠ "" ∧
    s.reserved_identifiers.contains (pyStrip ov) = false := by
  unfold resolve_type_name at h
  rw [hov] at h
  by_cases h1 : pyStrip ov = ""
  · simp [h1] at h
  · simp only [h1, if_false, ite_false, if_neg h1] at h
    by_cases h2 : pyStrip ov ∈ s.reserved_identifiers
    · simp [h2] at h
    · have h2c : s.reserved_identifiers.contains (pyStrip ov) = false := by
        simpa using h2
      simp only [h2c, Bool.false_eq_true, if_false, ite_false] at h
      refine ?_
      by_cases h3 : is_name_available s (pyStrip ov) = true
      · simp only [h3, if_true, ite_true] at h
        cases h
        exact ⟨rfl, h1, h2c⟩
      · simp only [h3, if_false, ite_false] at h
        cases hex : s.symbol_table.lookup fn with
        | some existing =>
            simp only [hex] at h
            by_cases h4 : existing.ue_name = pyStrip ov
            · simp only [h4, if_true, ite_true] at h
              cases h
              exact ⟨rfl, h1, h2c⟩
            · simp only [h4, if_false, ite_false] at h
              cases h
        | none =>
            simp only [hex] at h
            cases h

/-- C2, amended: registering a fully-qualified name a second time, with the
same or a different prefix, and whether its identifier came from an override
or from composition, returns the identical identifier the first registration
produced, and the identifier recorded in the symbol table stays that same
identifier; when the re-registration uses the same type role, the symbol
table is entirely unchanged.  (What the original claim adds, that the whole
entry is unchanged even under a different role, fails: the entry's kind tag
is overwritten, see the counterexample.) -/
theorem C2_idempotent_registration (s : MapperState)
    (fn p1 p2 k1 k2 : String) (toid1 toid2 : Nat) (fl1 fl2 : String)
    (nm : String) (h1 : resolve_type_name s fn p1 = .ok nm) :
    resolve_type_name (store_symbol s fn k1 nm toid1 fl1) fn p2 = .ok nm ∧
    (store_symbol (store_symbol s fn k1 nm toid1 fl1) fn k2 nm toid2 fl2).symbol_table.lookup fn
      = some ⟨k2, nm⟩ ∧
    (store_symbol (store_symbol s fn k1 nm toid1 fl1) fn k1 nm toid2 fl2).symbol_table
      = (store_symbol s fn k1 nm toid1 fl1).symbol_table := by
  refine ⟨?_, ?_, ?_⟩
  · cases hov : s.rename_overrides.lookup fn with
    | none =>
        unfold resolve_type_name
        have hov1 : (store_symbol s fn k1 nm toid1 fl1).rename_overrides.lookup fn = none := hov
        rw [hov1]
        unfold compose_type_name
        have hlk : (store_symbol s fn k1 nm toid1 fl1).symbol_table.lookup fn
            = some ⟨k1, nm⟩ := lookup_dictInsert_self s.symbol_table fn ⟨k1, nm⟩
        rw [hlk]
    | some ov =>
        obtain ⟨hnm, hne, hcon⟩ := resolve_override_ok hov h1
        subst hnm
        unfold resolve_type_name
        have hov1 : (store_symbol s fn k1 (pyStrip ov) toid1 fl1).rename_overrides.lookup fn
            = some ov := hov
        simp only [hov1]
        have hlk : (store_symbol s fn k1 (pyStrip ov) toid1 fl1).symbol_table.lookup fn
            = some ⟨k1, pyStrip ov⟩ :=
          lookup_dictInsert_self s.symbol_table fn ⟨k1, pyStrip ov⟩
        have hav : is_name_available (store_symbol s fn k1 (pyStrip ov) toid1 fl1)
            (pyStrip ov) = false := is_name_available_false hlk rfl
        have hC : ¬ ((store_symbol s fn k1 (pyStrip ov) toid1 fl1).reserved_identifiers.contains
            (pyStrip ov) = true) := by
          intro hcontra
          have hx : s.reserved_identifiers.contains (pyStrip ov) = true := hcontra
          rw [hcon] at hx
          cases hx
        have hA : ¬ (is_name_available (store_symbol s fn k1 (pyStrip ov) toid1 fl1)
            (pyStrip ov) = true) := by
          rw [hav]
          simp
        rw [if_neg hne, if_neg hC, if_neg hA, hlk]
        simp
  · exact lookup_dictInsert_self (dictInsert s.symbol_table fn ⟨k1, nm⟩) fn ⟨k2, nm⟩
  · show dictInsert (dictInsert s.symbol_table fn ⟨k1, nm⟩) fn ⟨k1, nm⟩
      = dictInsert s.symbol_table fn ⟨k1, nm⟩
    exact dictInsert_idem s.symbol_table fn ⟨k1, nm⟩

theorem C2_idempotent_registration_witness :
    resolve_type_name (TypeMapper.initDefault {}) "p.T" "E" = .ok "EPT" ∧
    (resolve_type_name (store_symbol (TypeMapper.initDefault {}) "p.T" "enum" "EPT" 1 "a.proto")
        "p.T" "F" = .ok "EPT" ∧
     (store_symbol (store_symbol (TypeMapper.initDefault {}) "p.T" "enum" "EPT" 1 "a.proto")
        "p.T" "message" "EPT" 1 "a.proto").symbol_table.lookup "p.T"
       = some (⟨"message", "EPT"⟩ : UESymbol) ∧
     (store_symbol (store_symbol (TypeMapper.initDefault {}) "p.T" "enum" "EPT" 1 "a.proto")
        "p.T" "enum" "EPT" 1 "a.proto").symbol_table
       = (store_symbol (TypeMapper.initDefault {}) "p.T" "enum" "EPT" 1 "a.proto").symbol_table) :=
  ⟨rfl, C2_idempotent_registration (TypeMapper.initDefault {}) "p.T" "E" "F"
    "enum" "message" 1 1 "a.proto" "a.proto" "EPT" rfl⟩

def c2Enum : PEnum := { oid := 1, name := "T", full_name := "p.T" }

def c2File1 : ProtoFile :=
  { name := "a.proto", package := some "p", enums := [c2Enum] }

def c2File2 : ProtoFile :=
  { name := "b.proto", package := some "p",
    messages := [Message.mk 2 "T" "p.T" [] [] [] [] []] }

def c2Init : MapperState := TypeMapper.initDefault {}

/-- C2, counterexample: registering the fully-qualified name p.T first as an
enum and then (a different prefix, the message role) as a message returns the
identical identifier ET both times, but the symbol table entry for p.T is not
left unchanged: its kind tag flips from enum to message. -/
theorem C2_counterexample :
    (run_ops_state c2Init [MapperOp.regFile c2File1]).symbol_table.lookup "p.T"
      = some ⟨"enum", "ET"⟩ ∧
    (run_ops_state c2Init [MapperOp.regFile c2File1, MapperOp.regFile c2File2]).symbol_table.lookup "p.T"
      = some ⟨"message", "ET"⟩ ∧
    ((⟨"message", "ET"⟩ : UESymbol) ≠ ⟨"enum", "ET"⟩) ∧
    (⟨"message", "ET"⟩ : UESymbol).ue_name = (⟨"enum", "ET"⟩ : UESymbol).ue_name := by
  refine ⟨rfl, rfl, ?_, rfl⟩
  decide

/-! ## Claim C3 -/

def c3File : ProtoFile :=
  { name := "c.proto", package := none,
    enums :=
      [{ oid := 11, name := "x_y", full_name := "x_y" },
       { oid := 12, name := "y", full_name := "x.y" },
       { oid := 13, name := "x__y", full_name := "x__y" },
       { oid := 14, name := "y_", full_name := "x.y_" }] }

def c3Init : MapperState := TypeMapper.initDefault {}

def c3S : MapperState := run_ops_state c3Init [MapperOp.regFile c3File]

theorem unavailable_size_pos {s : MapperState} {c : String}
    (h : is_name_available s c = false) :
    1 ≤ s.reserved_identifiers.length + s.symbol_table.length := by
  unfold is_name_available at h
  rcases Bool.and_eq_false_iff.mp h with h1 | h2
  · have hc : s.reserved_identifiers.contains c = true := by
      cases hx : s.reserved_identifiers.contains c
      · rw [hx] at h1; cases h1
      · rfl
    have hm : c ∈ s.reserved_identifiers := by simpa using hc
    have := List.length_pos.mpr (List.ne_nil_of_mem hm)
    omega
  · obtain ⟨x, hx, _⟩ := List.all_eq_false.mp h2
    have := List.length_pos.mpr (List.ne_nil_of_mem hx)
    omega

/-- C3: the collision search is order-dependent with off-by-one numbering: a
free composed candidate is kept bare; when it collides, the first retry is the
bare collision-infix variant with no number, the second retry carries the
numeral 1, the third the numeral 2.  The final conjuncts run the concrete
scenario: the four fully-qualified names x_y, x.y, x__y and x.y_ all compose
the same candidate E ++ XY and, registered in that explicit order, receive
EXY, EProtoXY, EProtoXY1 and EProtoXY2. -/
theorem C3_collision_numbering :
    (∀ (s : MapperState) (p S : String),
       is_name_available s (p ++ S) = true →
       make_unique_type_name s p S = .ok (p ++ S)) ∧
    (∀ (s : MapperState) (p S : String), S ≠ "" →
       is_name_available s (p ++ S) = false →
       is_name_available s (p ++ (COLLISION_INSERT ++ S)) = true →
       make_unique_type_name s p S = .ok (p ++ (COLLISION_INSERT ++ S))) ∧
    (∀ (s : MapperState) (p S : String), S ≠ "" →
       is_name_available s (p ++ S) = false →
       is_name_available s (p ++ (COLLISION_INSERT ++ S)) = false →
       is_name_available s (p ++ (COLLISION_INSERT ++ S ++ "1")) = true →
       make_unique_type_name s p S = .ok (p ++ (COLLISION_INSERT ++ S ++ "1"))) ∧
    (∀ (s : MapperState) (p S : String), S ≠ "" →
       is_name_available s (p ++ S) = false →
       is_name_available s (p ++ (COLLISION_INSERT ++ S)) = false →
       is_name_available s (p ++ (COLLISION_INSERT ++ S ++ "1")) = false →
       is_name_available s (p ++ (COLLISION_INSERT ++ S ++ "2")) = true →
       make_unique_type_name s p S = .ok (p ++ (COLLISION_INSERT ++ S ++ "2"))) ∧
    (run_ops c3Init [MapperOp.regFile c3File] = .ok c3S ∧
     c3S.symbol_table.lookup "x_y" = some (⟨"enum", "EXY"⟩ : UESymbol) ∧
     c3S.symbol_table.lookup "x.y" = some (⟨"enum", "EProtoXY"⟩ : UESymbol) ∧
     c3S.symbol_table.lookup "x__y" = some (⟨"enum", "EProtoXY1"⟩ : UESymbol) ∧
     c3S.symbol_table.lookup "x.y_" = some (⟨"enum", "EProtoXY2"⟩ : UESymbol)) := by
  have hfuel : ∀ n : Nat, n + 2 = (n + 1) + 1 := fun n => rfl
  refine ⟨?_, ?_, ?_, ?_, rfl, rfl, rfl, rfl, rfl⟩
  · intro s p S h
    unfold make_unique_type_name
    rw [if_pos h]
  · intro s p S hS h0 h1
    unfold make_unique_type_name
    rw [if_neg (by simp [h0])]
    unfold collision_base_suffix
    rw [if_pos hS]
    rw [hfuel, make_unique_go]
    have ha : attempt_suffix (COLLISION_INSERT ++ S) 1 = COLLISION_INSERT ++ S := by
      simp [attempt_suffix]
    rw [ha, if_pos h1]
  · intro s p S hS h0 h1 h2
    unfold make_unique_type_name
    rw [if_neg (by simp [h0])]
    unfold collision_base_suffix
    rw [if_pos hS]
    rw [hfuel, make_unique_go]
    have ha : attempt_suffix (COLLISION_INSERT ++ S) 1 = COLLISION_INSERT ++ S := by
      simp [attempt_suffix]
    rw [ha, if_neg (by simp [h1]), make_unique_go]
    have hb : attempt_suffix (COLLISION_INSERT ++ S) 2
        = COLLISION_INSERT ++ S ++ "1" := by
      simp [attempt_suffix]
      rfl
    rw [hb, if_pos h2]
  · intro s p S hS h0 h1 h2 h3
    unfold make_unique_type_name
    rw [if_neg (by simp [h0])]
    unfold collision_base_suffix
    rw [if_pos hS]
    obtain ⟨n, hn⟩ : ∃ n, s.reserved_identifiers.length + s.symbol_table.length
        = n + 1 := by
      have := unavailable_size_pos h0
      exact ⟨s.reserved_identifiers.length + s.symbol_table.length - 1, by omega⟩
    rw [hn, hfuel, make_unique_go]
    have ha : attempt_suffix (COLLISION_INSERT ++ S) 1 = COLLISION_INSERT ++ S := by
      simp [attempt_suffix]
    rw [ha, if_neg (by simp [h1]), make_unique_go]
    have hb : attempt_suffix (COLLISION_INSERT ++ S) 2
        = COLLISION_INSERT ++ S ++ "1" := by
      simp [attempt_suffix]
      rfl
    rw [hb, if_neg (by simp [h2]), make_unique_go]
    have hc : attempt_suffix (COLLISION_INSERT ++ S) 3
        = COLLISION_INSERT ++ S ++ "2" := by
      simp [attempt_suffix]
      rfl
    rw [hc, if_pos h3]

def c3W1 : MapperState := store_symbol c3Init "x_y" "enum" "EXY" 11 "c.proto"

def c3W2 : MapperState := store_symbol c3W1 "x.y" "enum" "EProtoXY" 12 "c.proto"

def c3W3 : MapperState := store_symbol c3W2 "x__y" "enum" "EProtoXY1" 13 "c.proto"

theorem C3_collision_numbering_witness :
    make_unique_type_name c3Init "E" "XY" = .ok ("E" ++ "XY") ∧
    make_unique_type_name c3W1 "E" "XY"
      = .ok ("E" ++ (COLLISION_INSERT ++ "XY")) ∧
    make_unique_type_name c3W2 "E" "XY"
      = .ok ("E" ++ (COLLISION_INSERT ++ "XY" ++ "1")) ∧
    make_unique_type_name c3W3 "E" "XY"
      = .ok ("E" ++ (COLLISION_INSERT ++ "XY" ++ "2")) :=
  ⟨C3_collision_numbering.1 c3Init "E" "XY" rfl,
   C3_collision_numbering.2.1 c3W1 "E" "XY" (by decide) rfl rfl,
   C3_collision_numbering.2.2.1 c3W2 "E" "XY" (by decide) rfl rfl rfl,
   C3_collision_numbering.2.2.2.1 c3W3 "E" "XY" (by decide) rfl rfl rfl rfl⟩

/-! ## Claim C6 -/

def c6Off : MapperState := TypeMapper.initDefault {}

def c6On : MapperState :=
  TypeMapper.initDefault { convert_unsigned_to_blueprint := true }

def c6u32 : Field :=
  { oid := 1, name := "count32", number := 1, cardinality := .requiredC,
    kind := .scalarK, scalar := some "uint32" }

def c6u64 : Field :=
  { oid := 2, name := "count64", number := 2, cardinality := .requiredC,
    kind := .scalarK, scalar := some "uint64" }

def c6rep32 : Field :=
  { oid := 3, name := "values32", number := 3, cardinality := .repeatedC,
    kind := .scalarK, scalar := some "uint32" }

def c6map32 : Field :=
  { oid := 4, name := "totals", number := 4, cardinality := .repeatedC,
    kind := .mapK,
    map_entry := some { key_kind := .scalarK, key_scalar := some "string",
                        value_kind := .scalarK, value_scalar := some "uint32" } }

def c6opt32 : Field :=
  { oid := 5, name := "maybe32", number := 5, cardinality := .optionalC,
    kind := .scalarK, scalar := some "uint32" }

/-- C6: with convert_unsigned_to_blueprint off a uint32 scalar field maps to
the unsigned target uint32 (uint64 to uint64); with it on the same field maps
to the signed target of equal width (int32 / int64); the downcast applies
identically to the direct scalar mapping, the repeated-element mapping and
the map-value mapping, and the optional wrapper synthesized for such a field
is keyed by (and carries) the downcast base type, so the wrapper built under
one toggle setting is never the one built under the other. -/
theorem C6_unsigned_downcast_toggle :
    (∀ s : MapperState, s.config.convert_unsigned_to_blueprint = false →
       ∀ t, blueprint_unsigned_override s t = t) ∧
    (∀ s : MapperState, s.config.convert_unsigned_to_blueprint = true →
       blueprint_unsigned_override s "uint32" = "int32" ∧
       blueprint_unsigned_override s "uint64" = "int64" ∧
       ∀ t, t ≠ "uint32" → t ≠ "uint64" → blueprint_unsigned_override s t = t) ∧
    (∀ (s : MapperState) (scalar mapped : String) (fnm pos : Option String),
       SCALAR_MAPPING.lookup scalar = some mapped →
       scalar_to_ue_type s scalar fnm pos
         = .ok (blueprint_unsigned_override s mapped)) ∧
    scalar_to_ue_type c6Off "uint32" none none = .ok "uint32" ∧
    scalar_to_ue_type c6Off "uint64" none none = .ok "uint64" ∧
    scalar_to_ue_type c6On "uint32" none none = .ok "int32" ∧
    scalar_to_ue_type c6On "uint64" none none = .ok "int64" ∧
    (convert_field c6Off c6u32).map (fun p => (p.1.base_type, p.1.ue_type))
      = .ok ("uint32", "uint32") ∧
    (convert_field c6On c6u32).map (fun p => (p.1.base_type, p.1.ue_type))
      = .ok ("int32", "int32") ∧
    (convert_field c6Off c6u64).map (fun p => (p.1.base_type, p.1.ue_type))
      = .ok ("uint64", "uint64") ∧
    (convert_field c6On c6u64).map (fun p => (p.1.base_type, p.1.ue_type))
      = .ok ("int64", "int64") ∧
    (convert_field c6Off c6rep32).map (fun p => p.1.ue_type)
      = .ok "TArray<uint32>" ∧
    (convert_field c6On c6rep32).map (fun p => p.1.ue_type)
      = .ok "TArray<int32>" ∧
    (convert_field c6Off c6map32).map (fun p => (p.1.ue_type, p.1.map_value_type))
      = .ok ("TMap<FString, uint32>", some "uint32") ∧
    (convert_field c6On c6map32).map (fun p => (p.1.ue_type, p.1.map_value_type))
      = .ok ("TMap<FString, int32>", some "int32") ∧
    (convert_field c6Off c6opt32).map (fun p =>
        (p.1.ue_type, p.1.optional_wrapper.map (fun w => (w.base_type, w.ue_name)),
         p.2.current_optional_wrappers.map Prod.fst))
      = .ok ("FProtoOptionalUint32", some ("uint32", "FProtoOptionalUint32"), ["uint32"]) ∧
    (convert_field c6On c6opt32).map (fun p =>
        (p.1.ue_type, p.1.optional_wrapper.map (fun w => (w.base_type, w.ue_name)),
         p.2.current_optional_wrappers.map Prod.fst))
      = .ok ("FProtoOptionalInt32", some ("int32", "FProtoOptionalInt32"), ["int32"]) := by
  refine ⟨?_, ?_, ?_,
    rfl, rfl, rfl, rfl, rfl, rfl, rfl, rfl, rfl, rfl, rfl, rfl, rfl, rfl⟩
  · intro s h t
    unfold blueprint_unsigned_override
    rw [if_pos (by simp [h])]
  · intro s h
    refine ⟨?_, ?_, ?_⟩
    · unfold blueprint_unsigned_override
      rw [if_neg (by simp [h])]
      rfl
    · unfold blueprint_unsigned_override
      rw [if_neg (by simp [h])]
      rfl
    · intro t h1 h2
      unfold blueprint_unsigned_override
      rw [if_neg (by simp [h]), if_neg h1, if_neg h2]
  · intro s scalar mapped fnm pos h
    unfold scalar_to_ue_type
    simp only [h]

theorem C6_unsigned_downcast_toggle_witness :
    blueprint_unsigned_override c6Off "uint32" = "uint32" ∧
    blueprint_unsigned_override c6On "uint32" = "int32" ∧
    blueprint_unsigned_override c6On "uint64" = "int64" ∧
    blueprint_unsigned_override c6On "bool" = "bool" ∧
    scalar_to_ue_type c6On "fixed32" none none
      = .ok (blueprint_unsigned_override c6On "uint32") :=
  ⟨C6_unsigned_downcast_toggle.1 c6Off rfl "uint32",
   (C6_unsigned_downcast_toggle.2.1 c6On rfl).1,
   (C6_unsigned_downcast_toggle.2.1 c6On rfl).2.1,
   (C6_unsigned_downcast_toggle.2.1 c6On rfl).2.2 "bool" (by decide) (by decide),
   C6_unsigned_downcast_toggle.2.2.1 c6On "fixed32" "uint32" none none rfl⟩

/-! ## Claim C10 -/

def c10MapField (keyScalar : String) (oidArg : Nat) : Field :=
  { oid := oidArg, name := "m", number := 1, cardinality := .repeatedC,
    kind := .mapK,
    map_entry := some { key_kind := .scalarK, key_scalar := some keyScalar,
                        value_kind := .scalarK, value_scalar := some "string" } }

/-- C10 (implicit): the unsigned downcast toggle also applies to map keys:
with convert_unsigned_to_blueprint on, a map field whose key scalar kind maps
to the unsigned target uint32 (uint32, fixed32) gets map_key_type int32, and
one whose key maps to uint64 (uint64, fixed64) gets int64; with the toggle
off the unsigned key targets are kept. -/
theorem C10_map_key_downcast :
    (∀ (s : MapperState) (sc : String) (resolved : Option ProtoTypeRef)
       (tn : Option String) (pos : String),
       map_entry_part_type s FieldKind.scalarK (some sc) resolved tn pos
         = scalar_to_ue_type s sc none (some pos)) ∧
    (convert_field c6On (c10MapField "uint32" 21)).map (fun p =>
        (p.1.map_key_type, p.1.ue_type))
      = .ok (some "int32", "TMap<int32, FString>") ∧
    (convert_field c6On (c10MapField "fixed32" 22)).map (fun p =>
        (p.1.map_key_type, p.1.ue_type))
      = .ok (some "int32", "TMap<int32, FString>") ∧
    (convert_field c6On (c10MapField "uint64" 23)).map (fun p =>
        (p.1.map_key_type, p.1.ue_type))
      = .ok (some "int64", "TMap<int64, FString>") ∧
    (convert_field c6On (c10MapField "fixed64" 24)).map (fun p =>
        (p.1.map_key_type, p.1.ue_type))
      = .ok (some "int64", "TMap<int64, FString>") ∧
    (convert_field c6Off (c10MapField "uint32" 25)).map (fun p => p.1.map_key_type)
      = .ok (some "uint32") ∧
    (convert_field c6Off (c10MapField "uint64" 26)).map (fun p => p.1.map_key_type)
      = .ok (some "uint64") := by
  refine ⟨?_, rfl, rfl, rfl, rfl, rfl, rfl⟩
  intro s sc resolved tn pos
  unfold map_entry_part_type
  rw [if_pos rfl]

theorem C10_map_key_downcast_witness :
    map_entry_part_type c6On FieldKind.scalarK (some "uint32") none none "key"
      = scalar_to_ue_type c6On "uint32" none (some "key") ∧
    scalar_to_ue_type c6On "uint32" none (some "key") = .ok "int32" :=
  ⟨C10_map_key_downcast.1 c6On "uint32" none none "key", rfl⟩

/-! ## Claim C5 -/

/-- C5: a configured rename override wins over composed-name derivation (the
returned identifier is exactly the override, whatever prefix and suffix the
composition would have used); an override whose identifier is reserved makes
registration raise a naming-conflict error; and when the identifier was
already assigned to the same fully-qualified name, re-registration is a no-op
returning the cached identifier, even though that identifier now sits in the
resolver's reserved set.  The first three parts cover NameResolver.register,
the last two TypeMapper._resolve_type_name. -/
theorem C5_override_precedence :
    (∀ (st : ResolverState) (fn p suffix ov : String),
       st.symbols.lookup fn = none →
       st.rules.overrides.lookup fn = some ov → ov ≠ "" →
       st.reserved.contains ov = false →
       resolver_register st fn p suffix
         = .ok (ov, { st with reserved := st.reserved ++ [ov],
                              symbols := dictInsert st.symbols fn ov })) ∧
    (∀ (st : ResolverState) (fn p suffix ov : String),
       st.symbols.lookup fn = none →
       st.rules.overrides.lookup fn = some ov → ov ≠ "" →
       st.reserved.contains ov = true →
       resolver_register st fn p suffix
         = .error (.valueError ("Override " ++ ov ++ " for type " ++ fn ++
             " conflicts with an existing UE symbol"))) ∧
    (∀ (st : ResolverState) (fn p suffix cached : String),
       st.symbols.lookup fn = some cached →
       resolver_register st fn p suffix = .ok (cached, st)) ∧
    (∀ (s : MapperState) (fn p ov : String),
       s.rename_overrides.lookup fn = some ov →
       pyStrip ov ≠ "" →
       s.reserved_identifiers.contains (pyStrip ov) = false →
       is_name_available s (pyStrip ov) = true →
       resolve_type_name s fn p = .ok (pyStrip ov)) ∧
    (∀ (s : MapperState) (fn p ov : String),
       s.rename_overrides.lookup fn = some ov →
       pyStrip ov ≠ "" →
       s.reserved_identifiers.contains (pyStrip ov) = true →
       resolve_type_name s fn p
         = .error (.valueError ("Rename override for " ++ fn ++
             " uses reserved UE identifier " ++ pyStrip ov))) := by
  refine ⟨?_, ?_, ?_, ?_, ?_⟩
  · intro st fn p suffix ov h1 h2 h3 h4
    unfold resolver_register
    simp only [h1, h2]
    rw [if_pos h3, if_neg (by simpa using h4)]
  · intro st fn p suffix ov h1 h2 h3 h4
    unfold resolver_register
    simp only [h1, h2]
    rw [if_pos h3, if_pos h4]
  · intro st fn p suffix cached h1
    unfold resolver_register
    simp only [h1]
  · intro s fn p ov h1 h2 h3 h4
    unfold resolve_type_name
    simp only [h1]
    rw [if_neg h2, if_neg (by simpa using h3), if_pos h4]
  · intro s fn p ov h1 h2 h3
    unfold resolve_type_name
    simp only [h1]
    rw [if_neg h2, if_pos h3]

def c5Rules : NamingRules :=
  { reserved_symbols := ["FTaken"],
    overrides := [("demo.T", "FCustom"), ("demo.U", "FTaken")],
    collision_suffix := "Proto" }

def c5St0 : ResolverState := NameResolver.init c5Rules []

def c5St1 : ResolverState :=
  { c5St0 with reserved := c5St0.reserved ++ ["FCustom"],
               symbols := dictInsert c5St0.symbols "demo.T" "FCustom" }

def c5Map : MapperState :=
  TypeMapper.initDefault { rename_overrides := [("demo.T", "FCustom")] }

def c5MapR : MapperState :=
  TypeMapper.initDefault { reserved_identifiers := ["FCustom"],
                           rename_overrides := [("demo.T", "FCustom")] }

theorem C5_override_precedence_witness :
    resolver_register c5St0 "demo.T" "F" "T" = .ok ("FCustom", c5St1) ∧
    resolver_register c5St0 "demo.U" "F" "U"
      = .error (.valueError ("Override " ++ "FTaken" ++ " for type " ++ "demo.U" ++
          " conflicts with an existing UE symbol")) ∧
    resolver_register c5St1 "demo.T" "F" "T" = .ok ("FCustom", c5St1) ∧
    c5St1.reserved.contains "FCustom" = true ∧
    resolve_type_name c5Map "demo.T" "F" = .ok "FCustom" ∧
    resolve_type_name c5MapR "demo.T" "F"
      = .error (.valueError ("Rename override for " ++ "demo.T" ++
          " uses reserved UE identifier " ++ "FCustom")) :=
  ⟨C5_override_precedence.1 c5St0 "demo.T" "F" "T" "FCustom" rfl rfl (by decide) rfl,
   C5_override_precedence.2.1 c5St0 "demo.U" "F" "U" "FTaken" rfl rfl (by decide) rfl,
   C5_override_precedence.2.2.1 c5St1 "demo.T" "F" "T" "FCustom" rfl,
   rfl,
   C5_override_precedence.2.2.2.1 c5Map "demo.T" "F" "FCustom" rfl (by decide) rfl rfl,
   C5_override_precedence.2.2.2.2 c5MapR "demo.T" "F" "FCustom" rfl (by decide) rfl⟩

/-! ## Claim C8 -/

def c8Init : MapperState := TypeMapper.initDefault {}

def c8Field (fn : String) : Field :=
  { oid := 2, name := "x", number := 1, cardinality := .requiredC,
    kind := .messageK, type_name := some fn,
    resolved_type := some ⟨3, fn, []⟩ }

/-- File A: one message M whose single field references the type fn, which is
declared in some other file that was never registered. -/
def c8File (fn : String) : ProtoFile :=
  { name := "a.proto", package := none,
    messages := [Message.mk 1 "M" "M" [c8Field fn] [] [] [] []] }

/-- The mapper state after the registration pass of map_file on c8File (the
registration pass never reads field data, so it is the same for every fn). -/
def c8S1 : MapperState :=
  store_symbol { c8Init with package := none } "M" "message" "FM" 1 "a.proto"

/-- C8: looking up a fully-qualified name that was never registered raises the
not-found KeyError (never a placeholder and never the ValueError used for
resolution errors, a distinct constructor); in particular, for every type name
fn other than the mapped file's own message M, mapping the file whose field
references fn without registering fn's file first fails with exactly that
lookup error. -/
theorem C8_lookup_failure_is_loud :
    (∀ (s : MapperState) (fn : String) (tn : Option String), fn ≠ "" →
       s.symbol_table.lookup fn = none →
       lookup_symbol s (some fn) tn
         = .error (.keyError ("Type " ++ fn ++
             " was not registered in the UE symbol table"))) ∧
    (∀ a b : String, PyErr.keyError a ≠ PyErr.valueError b) ∧
    (∀ fn : String, fn ≠ "M" → fn ≠ "" →
       map_file c8Init (c8File fn)
         = .error (.keyError ("Type " ++ fn ++
             " was not registered in the UE symbol table"))) := by
  refine ⟨?_, ?_, ?_⟩
  · intro s fn tn hne hnone
    unfold lookup_symbol
    simp only [if_neg hne, hnone]
  · intro a b hcontra
    cases hcontra
  · intro fn hM hne
    have hbeq : (fn == "M") = false := by
      simp [hM]
    have hreg : register_file c8Init (c8File fn) = .ok c8S1 := rfl
    simp only [map_file, hreg]
    simp only [c8File, convert_message_list, convert_message, convert_field_go,
      convert_field, base_type_for_field, lookup_symbol, c8Field,
      extract_unreal_options]
    simp [c8S1, store_symbol, dictInsert, oidInsert, c8Init,
      TypeMapper.initDefault, TypeMapper.init, List.lookup, hbeq, hne]

theorem C8_lookup_failure_is_loud_witness :
    lookup_symbol c8Init (some "other.B") (some "other.B")
      = .error (.keyError ("Type " ++ "other.B" ++
          " was not registered in the UE symbol table")) ∧
    (PyErr.keyError "k" ≠ PyErr.valueError "k") ∧
    map_file c8Init (c8File "other.B")
      = .error (.keyError ("Type " ++ "other.B" ++
          " was not registered in the UE symbol table")) :=
  ⟨C8_lookup_failure_is_loud.1 c8Init "other.B" (some "other.B") (by decide) rfl,
   C8_lookup_failure_is_loud.2.1 "k" "k",
   C8_lookup_failure_is_loud.2.2 "other.B" (by decide) (by decide)⟩

/-! ## Claim C9 -/

theorem string_ne_empty_iff {a : String} : a ≠ "" ↔ a.data ≠ [] := by
  constructor
  · intro h hd
    exact h (by cases a; simp_all)
  · intro h he
    subst he
    exact h rfl

theorem append_left_ne_empty {a : String} (b : String) (ha : a ≠ "") :
    a ++ b ≠ "" := by
  rw [string_ne_empty_iff] at ha ⊢
  rw [String.data_append]
  simp [ha]

theorem pyStartsWith_append_dot_self (fn : String) :
    pyStartsWith fn (fn ++ ".") = false := by
  unfold pyStartsWith
  by_contra hcontra
  have h1 : (fn ++ ".").data.isPrefixOf fn.data = true := by
    revert hcontra
    cases h : (fn ++ ".").data.isPrefixOf fn.data <;> simp
  have h2 : (fn ++ ".").data <+: fn.data := by
    exact List.isPrefixOf_iff_prefix.mp h1
  have h3 := h2.length_le
  rw [String.data_append] at h3
  simp at h3

theorem attempt_suffix_ne_empty {base : String} (attempt : Nat) (h : base ≠ "") :
    attempt_suffix base attempt ≠ "" := by
  unfold attempt_suffix
  split
  · exact h
  · exact append_left_ne_empty _ h

theorem make_unique_go_shape {s : MapperState} {pfx base : String}
    (hb : base ≠ "") :
    ∀ {fuel attempt : Nat} {nm : String},
      make_unique_go s pfx base fuel attempt = .ok nm →
      ∃ adj, adj ≠ "" ∧ nm = pfx ++ adj := by
  intro fuel
  induction fuel with
  | zero => intro attempt nm h; simp [make_unique_go] at h
  | succ fuel ih =>
      intro attempt nm h
      rw [make_unique_go] at h
      by_cases hc : is_name_available s (pfx ++ attempt_suffix base attempt) = true
      · simp only [hc, if_true] at h
        cases h
        exact ⟨attempt_suffix base attempt, attempt_suffix_ne_empty attempt hb, rfl⟩
      · simp only [hc, if_false] at h
        exact ih h

theorem make_unique_type_name_shape {s : MapperState} {pfx suffix nm : String}
    (hs : suffix ≠ "") (h : make_unique_type_name s pfx suffix = .ok nm) :
    ∃ adj, adj ≠ "" ∧ nm = pfx ++ adj := by
  unfold make_unique_type_name at h
  by_cases hc : is_name_available s (pfx ++ suffix) = true
  · simp only [hc, if_true] at h
    cases h
    exact ⟨suffix, hs, rfl⟩
  · simp only [hc, if_false] at h
    have hbase : collision_base_suffix COLLISION_INSERT suffix ≠ "" := by
      unfold collision_base_suffix
      rw [if_pos hs]
      exact append_left_ne_empty suffix (show COLLISION_INSERT ≠ "" by decide)
    exact make_unique_go_shape hbase h

/-- C9, amended: a type whose fully-qualified name equals the (nonempty)
enclosing package is not stripped to an empty relative path: composition sees
the raw input's own dot-separated segments (its title-cased form), and
whenever the composed suffix is nonempty the resulting identifier is neither
empty nor the bare type-role prefix, whatever collision adjustments were
needed.  (The unamended claim also covered an empty fully-qualified name; the
counterexample shows that case silently composes the bare prefix.) -/
theorem C9_empty_relative_path (pkg : String) (hp : pkg ≠ "")
    (s : MapperState) (pfx fn nm : String)
    (hnone : s.symbol_table.lookup fn = none)
    (hsuf : String.join ((relative_symbol_path s.package fn).map to_pascal_case) ≠ "")
    (hcomp : compose_type_name s pfx fn = .ok nm) :
    relative_symbol_path (some pkg) pkg
      = (pySplit pkg (· = '.')).filter (· ≠ "") ∧
    nm ≠ "" ∧ nm ≠ pfx := by
  refine ⟨?_, ?_⟩
  · unfold relative_symbol_path
    rw [if_neg hp]
    have hsw := pyStartsWith_append_dot_self pkg
    simp [hsw]
  · unfold compose_type_name at hcomp
    rw [hnone] at hcomp
    obtain ⟨adj, hadj, hnm⟩ := make_unique_type_name_shape hsuf hcomp
    subst hnm
    have hlen : 0 < adj.length := by
      have := string_ne_empty_iff.mp hadj
      cases hd : adj.data with
      | nil => exact absurd hd this
      | cons c rest =>
          show 0 < adj.data.length
          rw [hd]
          simp
    constructor
    · intro hcontra
      have : (pfx ++ adj).length = 0 := by rw [hcontra]; rfl
      rw [String.length_append] at this
      omega
    · intro hcontra
      have : (pfx ++ adj).length = pfx.length := by rw [hcontra]
      rw [String.length_append] at this
      omega

def c9Init : MapperState := TypeMapper.initDefault {}

def c9File : ProtoFile :=
  { name := "e.proto", package := none,
    messages := [Message.mk 31 "" "" [] [] [] [] []] }

/-- C9, counterexample: a registered type whose fully-qualified name is empty
composes an empty relative path and the registration then silently assigns
exactly the bare type-role prefix F, with no error raised. -/
theorem C9_counterexample :
    compose_type_name c9Init "F" "" = .ok "F" ∧
    resolve_type_name c9Init "" "F" = .ok "F" ∧
    run_ops c9Init [MapperOp.regFile c9File]
      = .ok (run_ops_state c9Init [MapperOp.regFile c9File]) ∧
    (run_ops_state c9Init [MapperOp.regFile c9File]).symbol_table.lookup ""
      = some (⟨"message", "F"⟩ : UESymbol) :=
  ⟨rfl, rfl, rfl, rfl⟩

theorem C9_empty_relative_path_witness :
    ("demo" : String) ≠ "" ∧
    (TypeMapper.initDefault {}).symbol_table.lookup "demo" = none ∧
    String.join ((relative_symbol_path (TypeMapper.initDefault {}).package
      "demo").map to_pascal_case) ≠ "" ∧
    compose_type_name (TypeMapper.initDefault {}) "F" "demo" = .ok "FDemo" ∧
    (relative_symbol_path (some "demo") "demo"
       = (pySplit "demo" (· = '.')).filter (· ≠ "") ∧
     ("FDemo" : String) ≠ "" ∧ ("FDemo" : String) ≠ "F") :=
  ⟨by decide, rfl, by decide, rfl,
   C9_empty_relative_path "demo" (by decide) (TypeMapper.initDefault {})
     "F" "demo" "FDemo" rfl (by decide) rfl⟩

/-! ## Claim C7 -/

/-- Whatever branch field conversion takes, the emitted dependent_files list
is the sorted dependency set collected for the field. -/
theorem convert_field_dependent_files {s : MapperState} {f : Field}
    {uf : UEField} {s1 : MapperState} (h : convert_field s f = .ok (uf, s1)) :
    uf.dependent_files = sortStrings
      (if f.kind = FieldKind.mapK then collect_map_dependencies s f
       else collect_field_dependencies s f) := by
  unfold convert_field at h
  by_cases hk : f.kind = FieldKind.mapK
  · rw [if_pos hk] at h
    rw [if_pos hk]
    cases hm : map_field_types s f with
    | error e => rw [hm] at h; cases h
    | ok t =>
        obtain ⟨bt, kt, vt⟩ := t
        rw [hm] at h
        simp only at h
        cases h
        rfl
  · rw [if_neg hk] at h
    rw [if_neg hk]
    cases hb : base_type_for_field s f with
    | error e => rw [hb] at h; cases h
    | ok bt =>
        rw [hb] at h
        simp only at h
        by_cases hr : (f.cardinality == FieldCardinality.repeatedC) = true
        · simp only [hr, if_true, ite_true] at h
          cases h
          rfl
        · simp only [hr, Bool.false_eq_true, if_false, ite_false] at h
          by_cases hw : (f.cardinality == FieldCardinality.optionalC && !f.oneof.isSome
              || f.oneof.isSome) = true
          · simp only [hw, if_true, ite_true] at h
            cases h
            rfl
          · simp only [hw, Bool.false_eq_true, if_false, ite_false] at h
            cases h
            rfl

theorem dependency_file_for_external {s : MapperState} {t : ProtoTypeRef}
    {b : String} (h1 : s.type_file_index.lookup t.oid = some b) (h2 : b ≠ "")
    (h3 : s.current_proto_file_name ≠ some b) :
    dependency_file_for s (some t) = some b := by
  unfold dependency_file_for
  simp only [h1]
  rw [if_neg h2, if_neg h3]

theorem dependency_file_for_same {s : MapperState} {t : ProtoTypeRef}
    {b : String} (h1 : s.type_file_index.lookup t.oid = some b)
    (hcur : s.current_proto_file_name = some b) :
    dependency_file_for s (some t) = none := by
  unfold dependency_file_for
  simp only [h1]
  by_cases hb : b = ""
  · rw [if_pos hb]
  · rw [if_neg hb, if_pos hcur]

/-- C7: a mapped field whose resolved message/enum type (including a map
entry's key or value type) was registered from a file other than the one
being mapped carries exactly that file's name in dependent_files, a nonempty
sorted deduplicated list; a field all of whose named types come from the file
being mapped carries the empty list. -/
theorem C7_dependency_tracking :
    (∀ (s : MapperState) (f : Field) (t : ProtoTypeRef) (b : String)
       (uf : UEField) (s1 : MapperState),
       (f.kind = FieldKind.messageK ∨ f.kind = FieldKind.enumK) →
       f.resolved_type = some t →
       s.type_file_index.lookup t.oid = some b → b ≠ "" →
       s.current_proto_file_name ≠ some b →
       convert_field s f = .ok (uf, s1) →
       uf.dependent_files = [b]) ∧
    (∀ (s : MapperState) (f : Field) (t : ProtoTypeRef) (b : String)
       (uf : UEField) (s1 : MapperState),
       (f.kind = FieldKind.messageK ∨ f.kind = FieldKind.enumK) →
       f.resolved_type = some t →
       s.type_file_index.lookup t.oid = some b →
       s.current_proto_file_name = some b →
       convert_field s f = .ok (uf, s1) →
       uf.dependent_files = []) ∧
    (∀ (s : MapperState) (f : Field) (me : MapEntry) (kt vt : ProtoTypeRef)
       (b b2 : String) (uf : UEField) (s1 : MapperState),
       f.kind = FieldKind.mapK → f.map_entry = some me →
       me.key_resolved_type = some kt → me.value_resolved_type = some vt →
       s.type_file_index.lookup kt.oid = some b → b ≠ "" →
       s.current_proto_file_name ≠ some b →
       s.type_file_index.lookup vt.oid = some b2 →
       s.current_proto_file_name = some b2 →
       convert_field s f = .ok (uf, s1) →
       uf.dependent_files = [b]) ∧
    (∀ (s : MapperState) (f : Field) (me : MapEntry) (kt vt : ProtoTypeRef)
       (b b2 : String) (uf : UEField) (s1 : MapperState),
       f.kind = FieldKind.mapK → f.map_entry = some me →
       me.key_resolved_type = some kt → me.value_resolved_type = some vt →
       s.type_file_index.lookup kt.oid = some b →
       s.current_proto_file_name = some b →
       s.type_file_index.lookup vt.oid = some b2 → b2 ≠ "" →
       s.current_proto_file_name ≠ some b2 →
       convert_field s f = .ok (uf, s1) →
       uf.dependent_files = [b2]) ∧
    (∀ (s : MapperState) (f : Field) (me : MapEntry) (kt vt : ProtoTypeRef)
       (b b2 : String) (uf : UEField) (s1 : MapperState),
       f.kind = FieldKind.mapK → f.map_entry = some me →
       me.key_resolved_type = some kt → me.value_resolved_type = some vt →
       s.type_file_index.lookup kt.oid = some b →
       s.current_proto_file_name = some b →
       s.type_file_index.lookup vt.oid = some b2 →
       s.current_proto_file_name = some b2 →
       convert_field s f = .ok (uf, s1) →
       uf.dependent_files = []) ∧
    (∀ (s : MapperState) (f : Field) (me : MapEntry) (kt vt : ProtoTypeRef)
       (b : String) (uf : UEField) (s1 : MapperState),
       f.kind = FieldKind.mapK → f.map_entry = some me →
       me.key_resolved_type = some kt → me.value_resolved_type = some vt →
       s.type_file_index.lookup kt.oid = some b → b ≠ "" →
       s.current_proto_file_name ≠ some b →
       s.type_file_index.lookup vt.oid = some b →
       convert_field s f = .ok (uf, s1) →
       uf.dependent_files = [b]) := by
  have hmapk : ∀ (f : Field), f.kind = FieldKind.mapK →
      ¬ (f.kind = FieldKind.messageK ∨ f.kind = FieldKind.enumK) := by
    intro f hk hcontra
    rcases hcontra with hx | hx <;> rw [hk] at hx <;> cases hx
  refine ⟨?_, ?_, ?_, ?_, ?_, ?_⟩
  · intro s f t b uf s1 hkind ht hlk hb hcur hconv
    have hne : f.kind ≠ FieldKind.mapK := by
      rcases hkind with hx | hx <;> rw [hx] <;> intro hy <;> cases hy
    rw [convert_field_dependent_files hconv, if_neg hne]
    unfold collect_field_dependencies
    rw [if_pos hkind]
    simp only [ht, dependency_file_for_external hlk hb hcur]
    rfl
  · intro s f t b uf s1 hkind ht hlk hcur hconv
    have hne : f.kind ≠ FieldKind.mapK := by
      rcases hkind with hx | hx <;> rw [hx] <;> intro hy <;> cases hy
    rw [convert_field_dependent_files hconv, if_neg hne]
    unfold collect_field_dependencies
    rw [if_pos hkind]
    simp only [ht, dependency_file_for_same hlk hcur]
    rfl
  · intro s f me kt vt b b2 uf s1 hk hme hkt hvt hlk hb hcur hlk2 hcur2 hconv
    rw [convert_field_dependent_files hconv, if_pos hk]
    unfold collect_map_dependencies
    simp only [hme, hkt, hvt, dependency_file_for_external hlk hb hcur,
      dependency_file_for_same hlk2 hcur2]
    rfl
  · intro s f me kt vt b b2 uf s1 hk hme hkt hvt hlk hcur hlk2 hb2 hcur2 hconv
    rw [convert_field_dependent_files hconv, if_pos hk]
    unfold collect_map_dependencies
    simp only [hme, hkt, hvt, dependency_file_for_same hlk hcur,
      dependency_file_for_external hlk2 hb2 hcur2]
    rfl
  · intro s f me kt vt b b2 uf s1 hk hme hkt hvt hlk hcur hlk2 hcur2 hconv
    rw [convert_field_dependent_files hconv, if_pos hk]
    unfold collect_map_dependencies
    simp only [hme, hkt, hvt, dependency_file_for_same hlk hcur,
      dependency_file_for_same hlk2 hcur2]
    rfl
  · intro s f me kt vt b uf s1 hk hme hkt hvt hlk hb hcur hlk2 hconv
    rw [convert_field_dependent_files hconv, if_pos hk]
    unfold collect_map_dependencies
    simp only [hme, hkt, hvt, dependency_file_for_external hlk hb hcur,
      dependency_file_for_external hlk2 hb hcur]
    simp [setAdd, sortStrings, insertSorted]

/-! Witness fixtures for C7: the mapper state reached while mapping a.proto
after both files were registered, with shared.proto declaring the enum E. -/

def c7State : MapperState :=
  { TypeMapper.initDefault {} with
    type_file_index := [(41, "shared.proto"), (42, "a.proto")],
    current_proto_file_name := some "a.proto" }

def c7ExtField : Field :=
  { oid := 51, name := "ext", number := 1, cardinality := .requiredC,
    kind := .enumK, type_name := some "shared.E",
    resolved_type := some ⟨41, "shared.E", []⟩ }

def c7LocField : Field :=
  { oid := 52, name := "loc", number := 2, cardinality := .requiredC,
    kind := .enumK, type_name := some "a.L",
    resolved_type := some ⟨42, "a.L", []⟩ }

def c7StateR : MapperState :=
  { c7State with symbol_table :=
      [("shared.E", ⟨"enum", "ESharedE"⟩), ("a.L", ⟨"enum", "EAL"⟩)] }

theorem C7_dependency_tracking_witness :
    (convert_field c7StateR c7ExtField).map (fun p => p.1.dependent_files)
      = .ok ["shared.proto"] ∧
    (convert_field c7StateR c7LocField).map (fun p => p.1.dependent_files)
      = .ok ([] : List String) := by
  have h1 : convert_field c7StateR c7ExtField
      = .ok ((convert_field c7StateR c7ExtField).toOption.get rfl) := rfl
  constructor
  · have := C7_dependency_tracking.1 c7StateR c7ExtField ⟨41, "shared.E", []⟩
      "shared.proto" ((convert_field c7StateR c7ExtField).toOption.get rfl).1
      ((convert_field c7StateR c7ExtField).toOption.get rfl).2
      (Or.inr rfl) rfl rfl (by decide) (by decide) rfl
    rw [show (convert_field c7StateR c7ExtField).map (fun p => p.1.dependent_files)
      = .ok ((convert_field c7StateR c7ExtField).toOption.get rfl).1.dependent_files from rfl]
    rw [this]
  · have := C7_dependency_tracking.2.1 c7StateR c7LocField ⟨42, "a.L", []⟩
      "a.proto" ((convert_field c7StateR c7LocField).toOption.get rfl).1
      ((convert_field c7StateR c7LocField).toOption.get rfl).2
      (Or.inr rfl) rfl rfl rfl rfl
    rw [show (convert_field c7StateR c7LocField).map (fun p => p.1.dependent_files)
      = .ok ((convert_field c7StateR c7LocField).toOption.get rfl).1.dependent_files from rfl]
    rw [this]

/-! ## Claim C4: wrapper-cache invariants -/

/-- Every wrapper cached during one map_file call is keyed by its own base
type. -/
def CacheGood (s : MapperState) : Prop :=
  ∀ b w, s.current_optional_wrappers.lookup b = some w → w.base_type = b

/-- Cache entries persist across conversion steps with their identifier and
base type intact (only the blueprint flags may be downgraded in place). -/
def CacheStable (s s1 : MapperState) : Prop :=
  ∀ b w, s.current_optional_wrappers.lookup b = some w →
    ∃ w1, s1.current_optional_wrappers.lookup b = some w1 ∧
      w1.ue_name = w.ue_name ∧ w1.base_type = w.base_type

/-- A converted field's wrapper, when present, is the cache entry for the
field's base type (up to the downgrade-only blueprint flags). -/
def WrapperTracked (s1 : MapperState) (uf : UEField) : Prop :=
  ∀ w, uf.optional_wrapper = some w →
    w.base_type = uf.base_type ∧
    ∃ w1, s1.current_optional_wrappers.lookup uf.base_type = some w1 ∧
      w1.ue_name = w.ue_name ∧ w1.base_type = w.base_type

theorem cacheStable_refl (s : MapperState) : CacheStable s s :=
  fun b w h => ⟨w, h, rfl, rfl⟩

theorem cacheStable_trans {s1 s2 s3 : MapperState}
    (h12 : CacheStable s1 s2) (h23 : CacheStable s2 s3) : CacheStable s1 s3 := by
  intro b w h
  obtain ⟨w1, hw1, he1, hb1⟩ := h12 b w h
  obtain ⟨w2, hw2, he2, hb2⟩ := h23 b w1 hw1
  exact ⟨w2, hw2, he2.trans he1, hb2.trans hb1⟩

theorem wrapperTracked_mono {s1 s2 : MapperState} {uf : UEField}
    (h : WrapperTracked s1 uf) (hs : CacheStable s1 s2) :
    WrapperTracked s2 uf := by
  intro w hw
  obtain ⟨hbase, w1, hw1, he1, hb1⟩ := h w hw
  obtain ⟨w2, hw2, he2, hb2⟩ := hs uf.base_type w1 hw1
  exact ⟨hbase, w2, hw2, he2.trans he1, hb2.trans hb1⟩

theorem ensure_optional_wrapper_spec {s : MapperState} (b : String) (vb : Bool)
    (hgood : CacheGood s) :
    CacheGood (ensure_optional_wrapper s b vb).2 ∧
    CacheStable s (ensure_optional_wrapper s b vb).2 ∧
    (ensure_optional_wrapper s b vb).1.base_type = b ∧
    (ensure_optional_wrapper s b vb).2.current_optional_wrappers.lookup b
      = some (ensure_optional_wrapper s b vb).1 := by
  cases hl : s.current_optional_wrappers.lookup b with
  | some w =>
      unfold ensure_optional_wrapper
      simp only [hl]
      by_cases hvb : vb = true
      · rw [if_pos hvb]
        exact ⟨hgood, cacheStable_refl s, hgood b w hl, hl⟩
      · rw [if_neg hvb]
        refine ⟨?_, ?_, hgood b w hl, ?_⟩
        · intro b0 w0 h0
          by_cases he : b0 = b
          · subst he
            rw [lookup_dictInsert_self] at h0
            cases h0
            exact hgood b0 w hl
          · rw [lookup_dictInsert_other _ b b0 _ he] at h0
            exact hgood b0 w0 h0
        · intro b0 w0 h0
          by_cases he : b0 = b
          · subst he
            rw [hl] at h0
            cases h0
            refine ⟨_, lookup_dictInsert_self _ b0 _, rfl, rfl⟩
          · exact ⟨w0, by rw [lookup_dictInsert_other _ b b0 _ he]; exact h0,
              rfl, rfl⟩
        · exact lookup_dictInsert_self _ b _
  | none =>
      unfold ensure_optional_wrapper
      simp only [hl]
      refine ⟨?_, ?_, by trivial, ?_⟩
      · intro b0 w0 h0
        by_cases he : b0 = b
        · subst he
          rw [lookup_dictInsert_self] at h0
          cases h0
          rfl
        · rw [lookup_dictInsert_other _ b b0 _ he] at h0
          exact hgood b0 w0 h0
      · intro b0 w0 h0
        by_cases he : b0 = b
        · subst he
          rw [hl] at h0
          cases h0
        · exact ⟨w0, by rw [lookup_dictInsert_other _ b b0 _ he]; exact h0,
            rfl, rfl⟩
      · exact lookup_dictInsert_self _ b _

theorem convert_field_cache {s : MapperState} {f : Field} {uf : UEField}
    {s1 : MapperState} (hgood : CacheGood s)
    (h : convert_field s f = .ok (uf, s1)) :
    CacheGood s1 ∧ CacheStable s s1 ∧ WrapperTracked s1 uf := by
  unfold convert_field at h
  by_cases hk : f.kind = FieldKind.mapK
  · rw [if_pos hk] at h
    cases hm : map_field_types s f with
    | error e => rw [hm] at h; cases h
    | ok t =>
        obtain ⟨bt, kt, vt⟩ := t
        rw [hm] at h
        simp only at h
        cases h
        exact ⟨hgood, cacheStable_refl s, by intro w hw; cases hw⟩
  · rw [if_neg hk] at h
    cases hb : base_type_for_field s f with
    | error e => rw [hb] at h; cases h
    | ok bt =>
        rw [hb] at h
        simp only at h
        by_cases hr : (f.cardinality == FieldCardinality.repeatedC) = true
        · simp only [hr, if_true, ite_true] at h
          cases h
          exact ⟨hgood, cacheStable_refl s, by intro w hw; cases hw⟩
        · simp only [hr, Bool.false_eq_true, if_false, ite_false] at h
          by_cases hw : (f.cardinality == FieldCardinality.optionalC && !f.oneof.isSome
              || f.oneof.isSome) = true
          · simp only [hw, if_true, ite_true] at h
            cases h
            obtain ⟨hg, hs, hbase, hlk⟩ :=
              ensure_optional_wrapper_spec bt (base_type_blueprint_enabled f) hgood
            refine ⟨hg, hs, ?_⟩
            intro w hwq
            cases hwq
            exact ⟨hbase, _, hlk, rfl, rfl⟩
          · simp only [hw, Bool.false_eq_true, if_false, ite_false] at h
            cases h
            exact ⟨hgood, cacheStable_refl s, by intro w hw2; cases hw2⟩

theorem convert_field_go_cache :
    ∀ {fs : List Field} {s : MapperState} {acc : List UEField}
      {fmap : List (Nat × UEField)} {ufs : List UEField}
      {fmap1 : List (Nat × UEField)} {s1 : MapperState},
      CacheGood s →
      convert_field_go s fs acc fmap = .ok (ufs, fmap1, s1) →
      (∀ uf ∈ acc, WrapperTracked s uf) →
      CacheGood s1 ∧ CacheStable s s1 ∧ ∀ uf ∈ ufs, WrapperTracked s1 uf := by
  intro fs
  induction fs with
  | nil =>
      intro s acc fmap ufs fmap1 s1 hgood h hacc
      cases h
      exact ⟨hgood, cacheStable_refl s, hacc⟩
  | cons f fs ih =>
      intro s acc fmap ufs fmap1 s1 hgood h hacc
      unfold convert_field_go at h
      cases hstep : convert_field s f with
      | error e => rw [hstep] at h; cases h
      | ok p =>
          obtain ⟨uf, s2⟩ := p
          rw [hstep] at h
          simp only at h
          obtain ⟨hg2, hst2, htr2⟩ := convert_field_cache hgood hstep
          have hacc2 : ∀ x ∈ acc ++ [uf], WrapperTracked s2 x := by
            intro x hx
            rcases List.mem_append.mp hx with hx | hx
            · exact wrapperTracked_mono (hacc x hx) hst2
            · rcases List.mem_singleton.mp hx with rfl
              exact htr2
          obtain ⟨hg3, hst3, htr3⟩ := ih hg2 h hacc2
          exact ⟨hg3, cacheStable_trans hst2 hst3, htr3⟩

mutual

theorem convert_message_cache (m : Message) :
    ∀ {s : MapperState} {um : UEMessage} {s1 : MapperState},
      CacheGood s → convert_message s m = .ok (um, s1) →
      CacheGood s1 ∧ CacheStable s s1 ∧
        ∀ uf ∈ um.allFields, WrapperTracked s1 uf := by
  cases m with
  | mk moid mname full_name fields nested nested_enums oneofs opts =>
      intro s um s1 hgood h
      unfold convert_message at h
      cases hl : lookup_symbol s (some full_name) (some full_name) with
      | error e => rw [hl] at h; cases h
      | ok nm =>
          simp only [hl] at h
          cases hf : convert_field_go s fields [] [] with
          | error e => rw [hf] at h; cases h
          | ok t =>
              obtain ⟨ufs, fmap, s2⟩ := t
              simp only [hf] at h
              cases hn : convert_message_list s2 nested with
              | error e => rw [hn] at h; cases h
              | ok p =>
                  obtain ⟨ums, s3⟩ := p
                  simp only [hn] at h
                  cases he : convert_enum_list s3 nested_enums with
                  | error e => rw [he] at h; cases h
                  | ok ues =>
                      simp only [he] at h
                      cases ho : convert_oneof_list fmap nm oneofs with
                      | error e => rw [ho] at h; cases h
                      | ok ows =>
                          simp only [ho] at h
                          cases h
                          obtain ⟨hg2, hst2, htr2⟩ :=
                            convert_field_go_cache hgood hf (by intro x hx; cases hx)
                          obtain ⟨hg3, hst3, htr3⟩ :=
                            convert_message_list_cache nested hg2 hn
                          refine ⟨hg3, cacheStable_trans hst2 hst3, ?_⟩
                          intro uf huf
                          rcases List.mem_append.mp huf with hx | hx
                          · exact wrapperTracked_mono (htr2 uf hx) hst3
                          · exact htr3 uf hx

theorem convert_message_list_cache (ms : List Message) :
    ∀ {s : MapperState} {ums : List UEMessage} {s1 : MapperState},
      CacheGood s → convert_message_list s ms = .ok (ums, s1) →
      CacheGood s1 ∧ CacheStable s s1 ∧
        ∀ uf ∈ UEMessage.allFieldsList ums, WrapperTracked s1 uf := by
  cases ms with
  | nil =>
      intro s ums s1 hgood h
      cases h
      refine ⟨hgood, cacheStable_refl s, ?_⟩
      intro uf huf
      cases huf
  | cons m ms =>
      intro s ums s1 hgood h
      unfold convert_message_list at h
      cases hstep : convert_message s m with
      | error e => rw [hstep] at h; cases h
      | ok p =>
          obtain ⟨um, s2⟩ := p
          simp only [hstep] at h
          cases hrest : convert_message_list s2 ms with
          | error e => rw [hrest] at h; cases h
          | ok q =>
              obtain ⟨ums2, s3⟩ := q
              simp only [hrest] at h
              cases h
              obtain ⟨hg2, hst2, htr2⟩ := convert_message_cache m hgood hstep
              obtain ⟨hg3, hst3, htr3⟩ := convert_message_list_cache ms hg2 hrest
              refine ⟨hg3, cacheStable_trans hst2 hst3, ?_⟩
              intro uf huf
              rcases List.mem_append.mp huf with hx | hx
              · exact wrapperTracked_mono (htr2 uf hx) hst3
              · exact htr3 uf hx

end

theorem map_field_types_shape {s : MapperState} {f : Field} {bt kt vt : String}
    (h : map_field_types s f = .ok (bt, kt, vt)) :
    bt = s.mapWrapper ++ "<" ++ kt ++ ", " ++ vt ++ ">" := by
  unfold map_field_types at h
  cases hme : f.map_entry with
  | none => rw [hme] at h; cases h
  | some me =>
      simp only [hme] at h
      cases hk : map_entry_part_type s me.key_kind me.key_scalar
          me.key_resolved_type me.key_type_name "key" with
      | error e => rw [hk] at h; cases h
      | ok k =>
          simp only [hk] at h
          cases hv : map_entry_part_type s me.value_kind me.value_scalar
              me.value_resolved_type me.value_type_name "value" with
          | error e => rw [hv] at h; cases h
          | ok v =>
              simp only [hv] at h
              cases h
              rfl

/-- C4, amended: a repeated non-map field converts to the array composition
around its element target type and is not individually optional; a map field
converts to the map composition around its key and value target types and is
neither optional nor repeated; an explicit-optional field, and a oneof-member
field that is not repeated, converts to the synthesized optional wrapper's
identifier; and any two wrapper-carrying fields of identical base target type
converted within the same map_file call carry wrappers with the same
identifier and base type (one shared cache entry).  (The unamended claim
asserted the wrapper form for every oneof-member field; the counterexample
shows a repeated oneof member converts to the array form instead.) -/
theorem C4_container_wrapper_composition :
    (∀ (s : MapperState) (f : Field) (uf : UEField) (s1 : MapperState),
       f.kind ≠ FieldKind.mapK → f.cardinality = FieldCardinality.repeatedC →
       s.arrayWrapper = "TArray" →
       convert_field s f = .ok (uf, s1) →
       uf.ue_type = "TArray<" ++ uf.base_type ++ ">" ∧ uf.is_optional = false) ∧
    (∀ (s : MapperState) (f : Field) (uf : UEField) (s1 : MapperState),
       f.kind = FieldKind.mapK → s.mapWrapper = "TMap" →
       convert_field s f = .ok (uf, s1) →
       ∃ K V, uf.map_key_type = some K ∧ uf.map_value_type = some V ∧
         uf.ue_type = "TMap<" ++ K ++ ", " ++ V ++ ">" ∧
         uf.is_optional = false ∧ uf.is_repeated = false) ∧
    (∀ (s : MapperState) (f : Field) (uf : UEField) (s1 : MapperState),
       f.kind ≠ FieldKind.mapK →
       f.cardinality ≠ FieldCardinality.repeatedC →
       ((f.cardinality = FieldCardinality.optionalC ∧ f.oneof = none) ∨
         f.oneof.isSome = true) →
       convert_field s f = .ok (uf, s1) →
       uf.is_optional = true ∧ ∃ w, uf.optional_wrapper = some w ∧
         uf.ue_type = w.ue_name ∧ uf.container = some w.ue_name) ∧
    (∀ (s : MapperState) (F : ProtoFile) (out : UEProtoFile) (s2 : MapperState),
       map_file s F = .ok (out, s2) →
       ∀ uf1 uf2, uf1 ∈ UEMessage.allFieldsList out.messages →
         uf2 ∈ UEMessage.allFieldsList out.messages →
         ∀ w1 w2, uf1.optional_wrapper = some w1 →
           uf2.optional_wrapper = some w2 →
           uf1.base_type = uf2.base_type →
           w1.ue_name = w2.ue_name ∧ w1.base_type = w2.base_type) := by
  refine ⟨?_, ?_, ?_, ?_⟩
  · intro s f uf s1 hk hcard hAW h
    unfold convert_field at h
    rw [if_neg hk] at h
    cases hb : base_type_for_field s f with
    | error e => rw [hb] at h; cases h
    | ok bt =>
        rw [hb] at h
        simp only at h
        have hr : (f.cardinality == FieldCardinality.repeatedC) = true := by
          rw [hcard]; rfl
        simp only [hr, if_true, ite_true] at h
        cases h
        refine ⟨?_, rfl⟩
        rw [hAW]
        rfl
  · intro s f uf s1 hk hMW h
    unfold convert_field at h
    rw [if_pos hk] at h
    cases hm : map_field_types s f with
    | error e => rw [hm] at h; cases h
    | ok t =>
        obtain ⟨bt, kt, vt⟩ := t
        rw [hm] at h
        simp only at h
        cases h
        refine ⟨kt, vt, rfl, rfl, ?_, rfl, rfl⟩
        have := map_field_types_shape hm
        simp only
        rw [this, hMW]
        rfl
  · intro s f uf s1 hk hcard hopt h
    unfold convert_field at h
    rw [if_neg hk] at h
    cases hb : base_type_for_field s f with
    | error e => rw [hb] at h; cases h
    | ok bt =>
        rw [hb] at h
        simp only at h
        have hr : (f.cardinality == FieldCardinality.repeatedC) = false := by
          cases hc : f.cardinality <;> simp_all
        simp only [hr, Bool.false_eq_true, if_false, ite_false] at h
        have hw : (f.cardinality == FieldCardinality.optionalC && !f.oneof.isSome
            || f.oneof.isSome) = true := by
          rcases hopt with ⟨hc, ho⟩ | ho
          · rw [hc, ho]; rfl
          · rw [ho]; simp
        simp only [hw, if_true, ite_true] at h
        cases h
        exact ⟨rfl, _, rfl, rfl, rfl⟩
  · intro s F out s2 h uf1 uf2 h1 h2 w1 w2 hw1 hw2 hbase
    simp only [map_file] at h
    cases hreg : register_file s F with
    | error e => rw [hreg] at h; cases h
    | ok sR =>
        simp only [hreg] at h
        cases hml : convert_message_list { sR with
            package := F.package
            current_optional_wrappers := []
            current_file_suffix := sanitize_file_identifier (some F.name)
            current_proto_file_name := some F.name } F.messages with
        | error e => rw [hml] at h; cases h
        | ok p =>
            obtain ⟨messages, sC⟩ := p
            simp only [hml] at h
            cases hel : convert_enum_list sC F.enums with
            | error e => rw [hel] at h; cases h
            | ok enums =>
                simp only [hel] at h
                cases h
                have hgood0 : CacheGood { sR with
                    package := F.package
                    current_optional_wrappers := []
                    current_file_suffix := sanitize_file_identifier (some F.name)
                    current_proto_file_name := some F.name } := by
                  intro b w hbw
                  simp [List.lookup] at hbw
                obtain ⟨hgC, hstC, htrC⟩ :=
                  convert_message_list_cache F.messages hgood0 hml
                obtain ⟨hb1, e1, he1, hn1, hbb1⟩ := htrC uf1 h1 w1 hw1
                obtain ⟨hb2, e2, he2, hn2, hbb2⟩ := htrC uf2 h2 w2 hw2
                rw [hbase] at he1
                rw [he2] at he1
                cases he1
                constructor
                · rw [← hn1, ← hn2]
                · rw [← hbb1, ← hbb2]

def c4RepOneof : Field :=
  { oid := 61, name := "roo", number := 1, cardinality := .repeatedC,
    kind := .scalarK, scalar := some "int32", oneof := some "g" }

/-- C4, counterexample: a repeated oneof-member field does not convert to the
synthesized optional wrapper's identifier; the repeated branch wins, the field
gets the array composition and no wrapper at all. -/
theorem C4_counterexample :
    c4RepOneof.oneof.isSome = true ∧
    (convert_field (TypeMapper.initDefault {}) c4RepOneof).map
        (fun p => (p.1.ue_type, p.1.is_optional, p.1.optional_wrapper))
      = .ok ("TArray<int32>", false, none) :=
  ⟨rfl, rfl⟩

def c4S0 : MapperState := TypeMapper.initDefault {}

def c4RepField : Field :=
  { oid := 62, name := "xs", number := 1, cardinality := .repeatedC,
    kind := .scalarK, scalar := some "int32" }

def c4MapField : Field :=
  { oid := 63, name := "m", number := 2, cardinality := .repeatedC,
    kind := .mapK,
    map_entry := some { key_kind := .scalarK, key_scalar := some "string",
                        value_kind := .scalarK, value_scalar := some "int32" } }

def c4OptField : Field :=
  { oid := 64, name := "o", number := 3, cardinality := .optionalC,
    kind := .scalarK, scalar := some "string" }

def c4OptField2 : Field :=
  { oid := 65, name := "o2", number := 4, cardinality := .optionalC,
    kind := .scalarK, scalar := some "string" }

def c4File : ProtoFile :=
  { name := "dd2.proto", package := none,
    messages := [Message.mk 66 "W" "W" [c4OptField, c4OptField2] [] [] [] []] }

def c4Out : UEProtoFile := ((map_file c4S0 c4File).toOption.get rfl).1

def c4L : List UEField := UEMessage.allFieldsList c4Out.messages

def c4uf1 : UEField := c4L.get ⟨0, by decide⟩

def c4uf2 : UEField := c4L.get ⟨1, by decide⟩

theorem C4_container_wrapper_composition_witness :
    (convert_field c4S0 c4RepField).map (fun p => (p.1.ue_type, p.1.is_optional))
      = .ok ("TArray<int32>", false) ∧
    (convert_field c4S0 c4MapField).map
        (fun p => (p.1.ue_type, p.1.is_optional, p.1.is_repeated))
      = .ok ("TMap<FString, int32>", false, false) ∧
    (convert_field c4S0 c4OptField).map
        (fun p => (p.1.is_optional, p.1.ue_type == p.1.container.getD ""))
      = .ok (true, true) ∧
    ((c4uf1.optional_wrapper.get rfl).ue_name
        = (c4uf2.optional_wrapper.get rfl).ue_name ∧
     (c4uf1.optional_wrapper.get rfl).base_type
        = (c4uf2.optional_wrapper.get rfl).base_type) := by
  refine ⟨?_, ?_, ?_, ?_⟩
  · have hc : convert_field c4S0 c4RepField
        = .ok ((convert_field c4S0 c4RepField).toOption.get rfl) := rfl
    obtain ⟨hty, hop⟩ := C4_container_wrapper_composition.1 c4S0 c4RepField
      ((convert_field c4S0 c4RepField).toOption.get rfl).1
      ((convert_field c4S0 c4RepField).toOption.get rfl).2
      (by decide) rfl rfl hc
    rw [show (convert_field c4S0 c4RepField).map (fun p => (p.1.ue_type, p.1.is_optional))
      = .ok (((convert_field c4S0 c4RepField).toOption.get rfl).1.ue_type,
             ((convert_field c4S0 c4RepField).toOption.get rfl).1.is_optional) from rfl]
    rw [hty, hop]
    rfl
  · have hc : convert_field c4S0 c4MapField
        = .ok ((convert_field c4S0 c4MapField).toOption.get rfl) := rfl
    obtain ⟨K, V, hK, hV, hty, hop, hrep⟩ := C4_container_wrapper_composition.2.1
      c4S0 c4MapField
      ((convert_field c4S0 c4MapField).toOption.get rfl).1
      ((convert_field c4S0 c4MapField).toOption.get rfl).2
      rfl rfl hc
    have hKv : K = "FString" := by
      have : some K = some "FString" := by rw [← hK]; rfl
      cases this; rfl
    have hVv : V = "int32" := by
      have : some V = some "int32" := by rw [← hV]; rfl
      cases this; rfl
    subst hKv; subst hVv
    rw [show (convert_field c4S0 c4MapField).map
        (fun p => (p.1.ue_type, p.1.is_optional, p.1.is_repeated))
      = .ok (((convert_field c4S0 c4MapField).toOption.get rfl).1.ue_type,
             ((convert_field c4S0 c4MapField).toOption.get rfl).1.is_optional,
             ((convert_field c4S0 c4MapField).toOption.get rfl).1.is_repeated) from rfl]
    rw [hty, hop, hrep]
    rfl
  · have hc : convert_field c4S0 c4OptField
        = .ok ((convert_field c4S0 c4OptField).toOption.get rfl) := rfl
    obtain ⟨hop, w, hw, hty, hcont⟩ := C4_container_wrapper_composition.2.2.1
      c4S0 c4OptField
      ((convert_field c4S0 c4OptField).toOption.get rfl).1
      ((convert_field c4S0 c4OptField).toOption.get rfl).2
      (by decide) (by decide) (Or.inl ⟨rfl, rfl⟩) hc
    rw [show (convert_field c4S0 c4OptField).map
        (fun p => (p.1.is_optional, p.1.ue_type == p.1.container.getD ""))
      = .ok (((convert_field c4S0 c4OptField).toOption.get rfl).1.is_optional,
             ((convert_field c4S0 c4OptField).toOption.get rfl).1.ue_type ==
               ((convert_field c4S0 c4OptField).toOption.get rfl).1.container.getD "") from rfl]
    rw [hop, hty, hcont]
    simp
  · have hmf : map_file c4S0 c4File = .ok (c4Out, (map_file c4S0 c4File).toOption.get rfl |>.2) := rfl
    exact C4_container_wrapper_composition.2.2.2 c4S0 c4File c4Out
      ((map_file c4S0 c4File).toOption.get rfl).2 hmf c4uf1 c4uf2
      (c4L.get_mem 0 (by decide)) (c4L.get_mem 1 (by decide))
      (c4uf1.optional_wrapper.get rfl) (c4uf2.optional_wrapper.get rfl)
      (by rw [Option.some_get]) (by rw [Option.some_get]) rfl

end Proto2UE
